import Mathlib

/-!
# Verification of the photography_wrapped statistics engine

Shallow embedding of the statistics aggregation and faceted-filtering engine of
the `photography_wrapped` repository, together with proofs settling the frozen
claims about it.

Embedded code (translated from the Python source):
* `src/models/photo_metadata.py` — the per-photo record (`PhotoRecord`).
* `src/models/lens.py` — `Lens.classify_type` (the zoom/prime name regex).
* `src/models/session.py` — `Session.calculate_statistics`.
* `src/models/analysis.py` — `Analysis.add_session_stats`,
  `Analysis.calculate_aggregated_hit_rate`.
* `src/analyzers/statistics_analyzer.py` — `StatisticsAnalyzer._filter_photos`,
  `StatisticsAnalyzer.analyze_sessions`,
  `analyze_photos_with_filters_from_photos`.
* `src/run_local.py` — `_build_baseline_category_group_metadata`,
  `_overlay_filtered_category_group_counts`.

Modelling conventions:
* Python `None` becomes `Option.none`; a nullable string field is
  `Option String`, a nullable float is `Option ℚ`, a nullable int `Option Int`.
* Python floats are embedded as rationals (`ℚ`): the engine only compares,
  subtracts and renders decimal EXIF values, and every literal appearing in
  the source or the claims has an exact decimal value.  `str(float)` is
  embedded by `floatStr` (decimal rendering, `"1.4"`, `"100.0"`), which agrees
  with CPython's shortest-repr on the terminating decimals the engine handles.
* Python `dict` / `collections.Counter` are embedded extensionally, as
  functions (`Cnt α := α → Nat`, breakdown maps `String → Option _`): the
  source only reads, inserts and additively merges them, never observes
  insertion order, and never stores a zero count, so dict equality coincides
  with pointwise equality.
* Python truthiness (`if photo.lens:` etc.) is embedded exactly: `None`, `""`,
  `0` and `0.0` are falsy.
-/

namespace PW

/-- A JSON-ish scalar as it arrives in a filter-spec value list: Python strings,
ints, floats and `None`. -/
inductive PyVal where
  | vStr (s : String)
  | vInt (n : Int)
  | vNum (q : ℚ)
  | vNull
  deriving DecidableEq

/-- A raw filter-spec entry: Python allows a scalar or a list of scalars
(`_values_as_set` normalises both). -/
inductive PyRaw where
  | scalar (v : PyVal)
  | vlist (vs : List PyVal)
  deriving DecidableEq

/-- Result of Python `float(v)`: a finite value, an infinity, or `nan`. -/
inductive PyFloat where
  | fin (q : ℚ)
  | pinf
  | ninf
  | nan
  deriving DecidableEq

/-- Python truthiness of an optional string: `None` and `""` are falsy. -/
def truthyS : Option String → Bool
  | none => false
  | some s => !(s = "")

/-- Python truthiness of an optional float: `None` and `0.0` are falsy. -/
def truthyQ : Option ℚ → Bool
  | none => false
  | some q => !(q = 0)

/-- Python truthiness of an optional int: `None` and `0` are falsy. -/
def truthyI : Option Int → Bool
  | none => false
  | some n => !(n = 0)

/-- Decimal digits of the fractional part of `q` (`0 ≤ q < 1`), with fuel.
Every value the engine renders has a short terminating decimal expansion. -/
def fracDigits : Nat → ℚ → String
  | 0, _ => ""
  | n + 1, q =>
    if q = 0 then ""
    else
      let d : Int := (q * 10).floor
      toString d ++ fracDigits n (q * 10 - (d : ℚ))

/-- Decimal rendering of a nonnegative rational, Python-float style
(`1.4`, `100.0`). -/
def floatStrAbs (q : ℚ) : String :=
  let ip : Int := q.floor
  let ds := fracDigits 20 (q - (ip : ℚ))
  toString ip ++ "." ++ (if ds = "" then "0" else ds)

/-- Embedding of CPython `str(x)` for a float `x`, on terminating decimals. -/
def floatStr (q : ℚ) : String :=
  if q < 0 then "-" ++ floatStrAbs (-q) else floatStrAbs q

/-- Embedding of Python `str(v)` for a filter-spec scalar. -/
def pyValStr : PyVal → String
  | .vStr s => s
  | .vInt n => toString n
  | .vNum q => floatStr q
  | .vNull => "None"

/-- No two consecutive underscores. -/
def noDoubleUnd : List Char → Bool
  | '_' :: '_' :: _ => false
  | _ :: rest => noDoubleUnd rest
  | [] => true

/-- A run of decimal digits possibly containing single underscores between
digits (Python numeric-literal rule: `1_000` is valid, `1__0`, `_1`, `1_`
are not). -/
def validRun (l : List Char) : Bool :=
  !(l = []) &&
    l.all (fun c => c.isDigit || c = '_') &&
    (match l.head? with | some c => c.isDigit | none => false) &&
    (match l.getLast? with | some c => c.isDigit | none => false) &&
    noDoubleUnd l

/-- Numeric value of a digit run (underscores already removed). -/
def digitsVal (l : List Char) : Nat :=
  l.foldl (fun a c => a * 10 + (c.toNat - 48)) 0

/-- Remove the underscores of a numeric literal. -/
def stripUnd (l : List Char) : List Char :=
  l.filter (fun c => !(c = '_'))

/-- Does `l` match Python's decimal float-literal grammar
(`D? ('.' D?)? ('e'|'E' sign? D)?` with at least one mantissa digit)?  `l` is
already sign-stripped. -/
def validFloatBody (l : List Char) : Bool :=
  let p := l.span (fun c => !(c = 'e') && !(c = 'E'))
  let expOK :=
    match p.2 with
    | [] => true
    | _ :: ep =>
      validRun (match ep with | '-' :: ds => ds | '+' :: ds => ds | ds => ds)
  let m := p.1.span (fun c => !(c = '.'))
  let mantOK :=
    match m.2 with
    | [] => validRun m.1
    | _ :: fp =>
      (decide (m.1 = []) || validRun m.1) &&
        (decide (fp = []) || validRun fp) &&
        !(decide (m.1 = []) && decide (fp = []))
  mantOK && expOK

/-- Value of a valid decimal float literal (sign already stripped). -/
def floatBodyVal (l : List Char) : ℚ :=
  let p := l.span (fun c => !(c = 'e') && !(c = 'E'))
  let expn : Int :=
    match p.2 with
    | [] => 0
    | _ :: ep =>
      match ep with
      | '-' :: ds => -(digitsVal (stripUnd ds) : Int)
      | '+' :: ds => (digitsVal (stripUnd ds) : Int)
      | ds => (digitsVal (stripUnd ds) : Int)
  let m := p.1.span (fun c => !(c = '.'))
  let fp := match m.2 with | _ :: f => f | [] => []
  let ipd := stripUnd m.1
  let fpd := stripUnd fp
  ((digitsVal ipd : ℚ) + (digitsVal fpd : ℚ) / (10 : ℚ) ^ fpd.length) *
    (10 : ℚ) ^ expn

/-- Whitespace stripped by Python `float()` (ASCII range). -/
def isStripSpace (c : Char) : Bool :=
  c = ' ' || c = '\t' || c = '\n' || c = '\r' || c = '\x0b' || c = '\x0c'

/-- `s.strip()` on the character list. -/
def trimChars (l : List Char) : List Char :=
  ((l.dropWhile isStripSpace).reverse.dropWhile isStripSpace).reverse

/-- Embedding of Python `float(s)` on a string: optional whitespace and sign,
`inf` / `infinity` / `nan` (any case), or a decimal literal with optional
exponent; anything else raises `ValueError` (here: `none`). -/
def parseFloatStr (s : String) : Option PyFloat :=
  let l := trimChars s.data
  let sl : Bool × List Char :=
    match l with
    | '-' :: r => (true, r)
    | '+' :: r => (false, r)
    | _ => (false, l)
  let low := sl.2.map Char.toLower
  if low = "inf".data || low = "infinity".data then
    some (if sl.1 then .ninf else .pinf)
  else if low = "nan".data then some .nan
  else if validFloatBody sl.2 then
    some (.fin ((if sl.1 then (-1 : ℚ) else 1) * floatBodyVal sl.2))
  else none

/-- Embedding of Python `float(v)` on a filter-spec scalar; `none` means the
`TypeError` / `ValueError` branch of `_filter_photos`. -/
def parseFloat : PyVal → Option PyFloat
  | .vStr s => parseFloatStr s
  | .vInt n => some (.fin (n : ℚ))
  | .vNum q => some (.fin q)
  | .vNull => none

/-- A frequency counter (`collections.Counter`), read extensionally. -/
abbrev Cnt (α : Type) : Type := α → Nat

namespace Cnt

/-- The empty counter. -/
def zero {α : Type} : Cnt α := fun _ => 0

/-- `counter[k] += 1`. -/
def incr {α : Type} [DecidableEq α] (c : Cnt α) (k : α) : Cnt α :=
  fun x => if x = k then c x + 1 else c x

/-- `counter.update(other)` — pointwise addition. -/
def add {α : Type} (c d : Cnt α) : Cnt α := fun x => c x + d x

/-- `if photo.f: counter[photo.f] += 1` for a nullable string field
(truthiness: skip `None` and `""`). -/
def incrS (c : Cnt String) : Option String → Cnt String
  | some v => if v = "" then c else c.incr v
  | none => c

/-- `if photo.f: counter[photo.f] += 1` for a nullable float field
(truthiness: skip `None` and `0.0`). -/
def incrQ (c : Cnt ℚ) : Option ℚ → Cnt ℚ
  | some v => if v = 0 then c else c.incr v
  | none => c

/-- `if photo.f: counter[photo.f] += 1` for a nullable int field
(truthiness: skip `None` and `0`). -/
def incrI (c : Cnt Int) : Option Int → Cnt Int
  | some v => if v = 0 then c else c.incr v
  | none => c

end Cnt

/-- `LensType` enumeration (src/models/lens.py). -/
inductive LensType where
  | prime
  | zoom
  | unknown
  deriving DecidableEq

/-- Python `re` `\s` on the ASCII range. -/
def isSpaceC (c : Char) : Bool :=
  c = ' ' || c = '\t' || c = '\n' || c = '\r' || c = '\x0b' || c = '\x0c'

/-- Does `\d+-\d+mm` match at the head of `l`?  Greedy digit runs are the only
candidates here since the characters after each run (`-`, `m`) are
non-digits, so `takeWhile` is exact regex semantics. -/
def zoomMatchAt (l : List Char) : Bool :=
  let d1 := l.takeWhile Char.isDigit
  !(d1 = []) &&
    (match l.drop d1.length with
     | '-' :: r =>
       let d2 := r.takeWhile Char.isDigit
       !(d2 = []) &&
         (match r.drop d2.length with
          | 'm' :: 'm' :: _ => true
          | _ => false)
     | _ => false)

/-- `re.search(r'\d+-\d+mm', s)` as a boolean: a match at some suffix. -/
def zoomSearch : List Char → Bool
  | [] => false
  | c :: rest => zoomMatchAt (c :: rest) || zoomSearch rest

/-- The `(?!\s*-)` lookahead after `mm`: succeed unless whitespace then `-`. -/
def noHyphenAhead (l : List Char) : Bool :=
  match l.drop (l.takeWhile isSpaceC).length with
  | '-' :: _ => false
  | _ => true

/-- Does `(\d+(?:\.\d+)?)mm(?!\s*-)` match at the head of `l` (lookbehind
checked by the caller)?  As in `zoomMatchAt`, greedy digit runs are exact
here, and the optional fraction group is forced exactly when a `.` follows
the integer digits. -/
def primeMatchAt (l : List Char) : Bool :=
  let d1 := l.takeWhile Char.isDigit
  !(d1 = []) &&
    (match l.drop d1.length with
     | '.' :: r2 =>
       let d2 := r2.takeWhile Char.isDigit
       !(d2 = []) &&
         (match r2.drop d2.length with
          | 'm' :: 'm' :: rest => noHyphenAhead rest
          | _ => false)
     | r =>
       match r with
       | 'm' :: 'm' :: rest => noHyphenAhead rest
       | _ => false)

/-- `re.search(r'(?<!\d)(\d+(?:\.\d+)?)mm(?!\s*-)', s)` as a boolean: tries
every start position whose previous character is not a digit. -/
def primeSearch : Option Char → List Char → Bool
  | _, [] => false
  | prev, c :: rest =>
    ((match prev with | some p => !p.isDigit | none => true) &&
        primeMatchAt (c :: rest)) ||
      primeSearch (some c) rest

/-- Embedding of `Lens.classify_type` (src/models/lens.py): the zoom pattern
is tried first, then the prime pattern, else unknown. -/
def classifyType (name : String) : LensType :=
  if zoomSearch name.data then .zoom
  else if primeSearch none name.data then .prime
  else .unknown

/-- Embedding of `PhotoMetadata` (src/models/photo_metadata.py) restricted to
the fields the statistics engine reads.

The `timeOfDay` field is modelled from the spec: the spec's PhotoRecord
carries a nullable time-of-day bucket and `_filter_photos` reads
`p.time_of_day`, but the photo rows are produced by
`DatabaseManager.get_photos_by_sessions`, which is absent from the
repository snapshot (only its callers appear); `PhotoMetadata` itself does
not declare the attribute. -/
structure PhotoRecord where
  sessionId : Option Int := none
  camera : Option String := none
  lens : Option String := none
  focalLength : Option ℚ := none
  iso : Option Int := none
  aperture : Option ℚ := none
  shutterSpeed : Option String := none
  exposureProgram : Option String := none
  exposureBias : Option ℚ := none
  flashMode : Option String := none
  timeOfDay : Option String := none
  deriving DecidableEq

/-- Embedding of the `filters` dict as read by `_filter_photos`
(src/analyzers/statistics_analyzer.py): `none` means the key is absent,
`some r` that it is present with raw value `r`. -/
structure FilterSpec where
  camera : Option PyRaw := none
  lens : Option PyRaw := none
  aperture : Option PyRaw := none
  shutterSpeed : Option PyRaw := none
  iso : Option PyRaw := none
  focalLength : Option PyRaw := none
  timeOfDay : Option PyRaw := none
  lensType : Option PyRaw := none
  deriving DecidableEq

/-- `_values_as_set`: `None` becomes the empty set, a list is taken as is, any
other scalar becomes a singleton.  (List membership below is Python set
membership; duplicates are irrelevant to `in`.) -/
def valuesAsSet : PyRaw → List PyVal
  | .scalar .vNull => []
  | .scalar v => [v]
  | .vlist vs => vs

/-- `_values_as_str_set`: stringify every non-`None` accepted value. -/
def valuesAsStrSet (r : PyRaw) : List String :=
  (valuesAsSet r).filterMap fun v =>
    match v with
    | .vNull => none
    | v => some (pyValStr v)

/-- Python `p.attr in values` for a nullable string attribute against the raw
accepted values: `None == None` holds, a string equals only the same string,
and a string never equals a number. -/
def memValS (o : Option String) (vs : List PyVal) : Bool :=
  vs.any fun v =>
    match o, v with
    | none, .vNull => true
    | some s, .vStr t => s = t
    | _, _ => false

/-- `p.camera in cameras`. -/
def cameraPred (r : PyRaw) (p : PhotoRecord) : Bool :=
  memValS p.camera (valuesAsSet r)

/-- `p.lens in lenses`. -/
def lensPred (r : PyRaw) (p : PhotoRecord) : Bool :=
  memValS p.lens (valuesAsSet r)

/-- `p.aperture and str(p.aperture) in apertures`. -/
def aperturePred (r : PyRaw) (p : PhotoRecord) : Bool :=
  match p.aperture with
  | some q => !(q = 0) && (valuesAsStrSet r).contains (floatStr q)
  | none => false

/-- `p.shutter_speed in speeds`. -/
def shutterPred (r : PyRaw) (p : PhotoRecord) : Bool :=
  memValS p.shutterSpeed (valuesAsSet r)

/-- `p.iso and str(p.iso) in isos`. -/
def isoPred (r : PyRaw) (p : PhotoRecord) : Bool :=
  match p.iso with
  | some n => !(n = 0) && (valuesAsStrSet r).contains (toString n)
  | none => false

/-- The parsed focal-length targets: `float(v)` over the accepted values,
skipping those that raise. -/
def focalVals (r : PyRaw) : List PyFloat :=
  (valuesAsSet r).filterMap parseFloat

/-- `abs(float(p.focal_length) - fv) < 0.1`; comparisons against `inf`/`nan`
are false. -/
def tolMatch (q : ℚ) : PyFloat → Bool
  | .fin fv => |q - fv| < 1 / 10
  | _ => false

/-- `p.focal_length and any(abs(float(p.focal_length) - fv) < 0.1 ...)`. -/
def focalPred (fvs : List PyFloat) (p : PhotoRecord) : Bool :=
  match p.focalLength with
  | some q => !(q = 0) && fvs.any (tolMatch q)
  | none => false

/-- `p.time_of_day in times`. -/
def timeOfDayPred (r : PyRaw) (p : PhotoRecord) : Bool :=
  memValS p.timeOfDay (valuesAsSet r)

/-- `'-' in p.lens` on a (truthy) lens name. -/
def hasHyphen : Option String → Bool
  | some s => s.data.contains '-'
  | none => false

/-- `p.lens and '-' not in p.lens` — the `lens_type == 'prime'` branch. -/
def lensTypePrimePred (p : PhotoRecord) : Bool :=
  truthyS p.lens && !(hasHyphen p.lens)

/-- `p.lens and '-' in p.lens` — the `lens_type == 'zoom'` branch. -/
def lensTypeZoomPred (p : PhotoRecord) : Bool :=
  truthyS p.lens && hasHyphen p.lens

/-- The focal-length stage of `_filter_photos`: applied only when at least
one accepted value parses with `float` (`if focal_values:`). -/
def focalStage (o : Option PyRaw) : Option (PhotoRecord → Bool) :=
  match o with
  | none => none
  | some r =>
    let fvs := focalVals r
    if fvs.isEmpty then none else some (focalPred fvs)

/-- The `lens_type` stage of `_filter_photos`: the raw value is compared with
`==` against the strings `'prime'` and `'zoom'`; any other value leaves the
list untouched. -/
def lensTypeStage (o : Option PyRaw) : Option (PhotoRecord → Bool) :=
  match o with
  | none => none
  | some r =>
    if r = .scalar (.vStr "prime") then some lensTypePrimePred
    else if r = .scalar (.vStr "zoom") then some lensTypeZoomPred
    else none

/-- The eight narrowing stages of `_filter_photos`, in source order; `none`
is a stage that leaves the list untouched (absent key, unparseable
focal-length values, unrecognised `lens_type`). -/
def stageList (f : FilterSpec) : List (Option (PhotoRecord → Bool)) :=
  [f.camera.map cameraPred,
   f.lens.map lensPred,
   f.aperture.map aperturePred,
   f.shutterSpeed.map shutterPred,
   f.iso.map isoPred,
   focalStage f.focalLength,
   f.timeOfDay.map timeOfDayPred,
   lensTypeStage f.lensType]

/-- Apply one stage: `filtered_photos = [p for p in filtered_photos if …]`,
or leave the list as is. -/
def maybeFilter (l : List PhotoRecord) (q : Option (PhotoRecord → Bool)) :
    List PhotoRecord :=
  match q with
  | none => l
  | some pr => l.filter pr

/-- Embedding of `StatisticsAnalyzer._filter_photos`
(src/analyzers/statistics_analyzer.py, lines 379–436): the eight filter keys
applied in source order, each narrowing the list. -/
def filterPhotos (photos : List PhotoRecord) (f : FilterSpec) :
    List PhotoRecord :=
  (stageList f).foldl maybeFilter photos

/-- The per-photo predicate `filterPhotos` computes: the conjunction of the
active per-key predicates (an inactive stage contributes `true`). -/
def photoPred (f : FilterSpec) (p : PhotoRecord) : Bool :=
  (stageList f).all fun q =>
    match q with
    | none => true
    | some pr => pr p

/-- Per-lens breakdown (the dict created in `Session.calculate_statistics`):
a photo count and six sub-counters scoped to one lens name. -/
@[ext]
structure LensBreakdown where
  count : Nat := 0
  shutterSpeed : Cnt String := Cnt.zero
  aperture : Cnt ℚ := Cnt.zero
  iso : Cnt Int := Cnt.zero
  exposureProgram : Cnt String := Cnt.zero
  flashMode : Cnt String := Cnt.zero
  focalLength : Cnt ℚ := Cnt.zero

/-- The statistics dict returned by `Session.calculate_statistics`
(src/models/session.py, lines 110–218), restricted to the entries the
aggregator reads (`name`/`category`/`group`/`date` are carried along but
never consumed by `Analysis.add_session_stats`). -/
@[ext]
structure SessionStats where
  totalCount : Nat
  hitRate : Option ℚ := none
  lensFreq : Cnt String := Cnt.zero
  cameraFreq : Cnt String := Cnt.zero
  shutterSpeedFreq : Cnt String := Cnt.zero
  apertureFreq : Cnt ℚ := Cnt.zero
  isoFreq : Cnt Int := Cnt.zero
  exposureProgramFreq : Cnt String := Cnt.zero
  flashModeFreq : Cnt String := Cnt.zero
  focalLengthFreq : Cnt ℚ := Cnt.zero
  exposureBiasFreq : Cnt ℚ := Cnt.zero
  lensBreakdowns : String → Option LensBreakdown := fun _ => none
  primeCount : Nat := 0
  zoomCount : Nat := 0

/-- Embedding of `Session` (src/models/session.py) restricted to the fields
`calculate_statistics` and the aggregator read. -/
structure Session where
  photos : List PhotoRecord := []
  totalPhotos : Nat := 0
  totalRawPhotos : Option Int := none
  hitRate : Option ℚ := none
  deriving DecidableEq

/-- `Session.add_photo`: append and resynchronise `total_photos`. -/
def Session.addPhoto (s : Session) (p : PhotoRecord) : Session :=
  { s with photos := s.photos ++ [p],
           totalPhotos := (s.photos ++ [p]).length }

/-- A session holding exactly `ps` with `total_photos = len(ps)` — the state
`analyze_photos_with_filters_from_photos` builds (`temp_session`) and the
state `add_photo` maintains. -/
def sessionOfPhotos (ps : List PhotoRecord) : Session :=
  { photos := ps, totalPhotos := ps.length }

/-- The per-photo updates of the lens-specific breakdown block in
`Session.calculate_statistics`. -/
def breakdownAddPhoto (b : LensBreakdown) (p : PhotoRecord) : LensBreakdown :=
  { count := b.count + 1
    shutterSpeed := b.shutterSpeed.incrS p.shutterSpeed
    aperture := b.aperture.incrQ p.aperture
    iso := b.iso.incrI p.iso
    exposureProgram := b.exposureProgram.incrS p.exposureProgram
    flashMode := b.flashMode.incrS p.flashMode
    focalLength := b.focalLength.incrQ p.focalLength }

/-- One iteration of the photo loop of `Session.calculate_statistics`:
top-level counters, the per-lens breakdown, and the prime/zoom
classification (all guarded by Python truthiness as in the source). -/
def statsStep (s : SessionStats) (p : PhotoRecord) : SessionStats :=
  let s :=
    { s with
      lensFreq := s.lensFreq.incrS p.lens
      cameraFreq := s.cameraFreq.incrS p.camera
      shutterSpeedFreq := s.shutterSpeedFreq.incrS p.shutterSpeed
      apertureFreq := s.apertureFreq.incrQ p.aperture
      isoFreq := s.isoFreq.incrI p.iso
      exposureProgramFreq := s.exposureProgramFreq.incrS p.exposureProgram
      flashModeFreq := s.flashModeFreq.incrS p.flashMode
      focalLengthFreq := s.focalLengthFreq.incrQ p.focalLength
      exposureBiasFreq := s.exposureBiasFreq.incrQ p.exposureBias }
  match p.lens with
  | some lname =>
    if lname = "" then s
    else
      let b := breakdownAddPhoto ((s.lensBreakdowns lname).getD {}) p
      let s :=
        { s with
          lensBreakdowns := fun k =>
            if k = lname then some b else s.lensBreakdowns k }
      match classifyType lname with
      | .prime => { s with primeCount := s.primeCount + 1 }
      | .zoom => { s with zoomCount := s.zoomCount + 1 }
      | .unknown => s
  | none => s

/-- Embedding of `Session.calculate_statistics`: `total_count` is the
session's `total_photos` field, `hit_rate` its `hit_rate` field, and the
counters are one fold over `self.photos`. -/
def calculateStatistics (s : Session) : SessionStats :=
  s.photos.foldl statsStep { totalCount := s.totalPhotos, hitRate := s.hitRate }

/-- The per-group statistics calculator of the spec's §4.2: statistics of a
photo population (a session whose `total_photos` is in sync). -/
def calcPhotos (ps : List PhotoRecord) : SessionStats :=
  calculateStatistics (sessionOfPhotos ps)

/-- Embedding of `Analysis` (src/models/analysis.py) restricted to the fields
the aggregation engine touches (`metadata` is a presentation bag written by
the HTTP layer; `sessions` collects ids which the embedded sessions do not
carry). -/
@[ext]
structure Analysis where
  name : String := ""
  totalPhotos : Nat := 0
  totalRawPhotos : Int := 0
  hitRate : Option ℚ := none
  lensFreq : Cnt String := Cnt.zero
  cameraFreq : Cnt String := Cnt.zero
  shutterSpeedFreq : Cnt String := Cnt.zero
  apertureFreq : Cnt ℚ := Cnt.zero
  isoFreq : Cnt Int := Cnt.zero
  exposureProgramFreq : Cnt String := Cnt.zero
  flashModeFreq : Cnt String := Cnt.zero
  focalLengthFreq : Cnt ℚ := Cnt.zero
  exposureBiasFreq : Cnt ℚ := Cnt.zero
  timeOfDayFreq : Cnt String := Cnt.zero
  lensBreakdowns : String → Option LensBreakdown := fun _ => none
  primeCount : Nat := 0
  zoomCount : Nat := 0

/-- The breakdown merge of `Analysis.add_session_stats`: counts and all six
sub-counters are summed. -/
def mergeBreakdown (cur b : LensBreakdown) : LensBreakdown :=
  { count := cur.count + b.count
    shutterSpeed := cur.shutterSpeed.add b.shutterSpeed
    aperture := cur.aperture.add b.aperture
    iso := cur.iso.add b.iso
    exposureProgram := cur.exposureProgram.add b.exposureProgram
    flashMode := cur.flashMode.add b.flashMode
    focalLength := cur.focalLength.add b.focalLength }

/-- Embedding of `Analysis.add_session_stats` (src/models/analysis.py, lines
194–238).  The session dict has no `time_of_day_freq` entry (commented out
in `calculate_statistics`), so `get` yields the empty counter and that
update is a no-op.  A lens name absent from `self.lens_breakdowns` is
initialised to the zero breakdown and then summed, which is `mergeBreakdown
{} b`; a name absent from the incoming dict is left untouched. -/
def Analysis.addSessionStats (a : Analysis) (st : SessionStats) : Analysis :=
  { a with
    totalPhotos := a.totalPhotos + st.totalCount
    lensFreq := a.lensFreq.add st.lensFreq
    cameraFreq := a.cameraFreq.add st.cameraFreq
    shutterSpeedFreq := a.shutterSpeedFreq.add st.shutterSpeedFreq
    apertureFreq := a.apertureFreq.add st.apertureFreq
    isoFreq := a.isoFreq.add st.isoFreq
    exposureProgramFreq := a.exposureProgramFreq.add st.exposureProgramFreq
    flashModeFreq := a.flashModeFreq.add st.flashModeFreq
    focalLengthFreq := a.focalLengthFreq.add st.focalLengthFreq
    exposureBiasFreq := a.exposureBiasFreq.add st.exposureBiasFreq
    lensBreakdowns := fun k =>
      match st.lensBreakdowns k with
      | none => a.lensBreakdowns k
      | some b => some (mergeBreakdown ((a.lensBreakdowns k).getD {}) b)
    primeCount := a.primeCount + st.primeCount
    zoomCount := a.zoomCount + st.zoomCount }

/-- Embedding of `Analysis.calculate_aggregated_hit_rate` (src/models/
analysis.py, lines 240–248): sets `hit_rate = total_photos / total_raw *
100` when `total_raw > 0`, else leaves it unchanged. -/
def Analysis.calcAggregatedHitRate (a : Analysis) (totalRaw : Int) :
    Analysis :=
  if 0 < totalRaw then
    { a with hitRate := some ((a.totalPhotos : ℚ) / (totalRaw : ℚ) * 100) }
  else a

/-- The aggregator of the spec's §4.3: a fresh `Analysis` fed the parts by
`add_session_stats`, as `analyze_sessions` does session by session. -/
def aggregate (parts : List SessionStats) : Analysis :=
  parts.foldl Analysis.addSessionStats {}

/-- One iteration of the session loop of `analyze_sessions`: add the
session's statistics to the analysis, and add its `total_raw_photos` to the
`total_raw` accumulator whenever that field is truthy (non-null and
non-zero — with no validity comparison against `total_photos`). -/
def analyzeStep (acc : Analysis × Int) (s : Session) : Analysis × Int :=
  (acc.1.addSessionStats (calculateStatistics s),
   if truthyI s.totalRawPhotos then acc.2 + s.totalRawPhotos.getD 0
   else acc.2)

/-- Embedding of `StatisticsAnalyzer.analyze_sessions`
(src/analyzers/statistics_analyzer.py, lines 91–141) with the database
fetches already resolved: each found session contributes its statistics and
its truthy raw count; afterwards `total_raw_photos` is set and, when
`total_raw > 0`, the aggregated hit rate is computed. -/
def analyzeSessions (sessions : List Session) : Analysis :=
  let acc := sessions.foldl analyzeStep ({ name := "Combined Analysis" }, 0)
  let a := { acc.1 with totalRawPhotos := acc.2 }
  if 0 < acc.2 then a.calcAggregatedHitRate acc.2 else a

/-- Embedding of `analyze_photos_with_filters_from_photos`
(src/analyzers/statistics_analyzer.py, lines 438–491): filter, build a
temporary session with `total_photos = len(filtered)`, compute its
statistics, and aggregate them into a fresh `Analysis`.  Returns the
analysis and the filtered list. -/
def analyzeFromPhotos (photos : List PhotoRecord) (f : FilterSpec) :
    Analysis × List PhotoRecord :=
  let filtered := filterPhotos photos f
  let stats := calculateStatistics (sessionOfPhotos filtered)
  (Analysis.addSessionStats { name := "Filtered Analysis" } stats, filtered)

/-- A `sessions` table row as read by the rollup code in src/run_local.py. -/
structure SessionRow where
  id : Int
  category : Option String := none
  groupName : Option String := none
  totalPhotos : Option Int := none
  totalRawPhotos : Option Int := none
  deriving DecidableEq

/-- `_safe_int`: `int(v)`, or `0` when that raises (`int(None)`). -/
def safeInt : Option Int → Int
  | some n => n
  | none => 0

/-- Python `x or sentinel` on a nullable string: `None` and `""` are falsy. -/
def orSentinel (o : Option String) (d : String) : String :=
  match o with
  | some s => if s = "" then d else s
  | none => d

/-- Embedding of `_hit_rate_contrib` (src/run_local.py): a session
contributes `(photos, raw)` to the hit-rate totals only when its RAW count
is non-null, positive, and at least its photo count. -/
def hitRateContrib (tp traw : Option Int) : Option (Int × Int) :=
  match traw with
  | none => none
  | some raw =>
    let photos := safeInt tp
    if raw ≤ 0 then none
    else if photos < 0 then none
    else if photos > raw then none
    else some (photos, raw)

/-- A category entry of the rollup dicts built in
`_build_baseline_category_group_metadata`. -/
structure CatEntry where
  sessions : Nat := 0
  photos : Int := 0
  rawPhotos : Int := 0
  hitRatePhotos : Int := 0
  hitRate : Option ℚ := none
  missingRawSessions : Nat := 0
  invalidRawSessions : Nat := 0
  deriving DecidableEq

/-- A group entry of the rollup dicts (additionally records the category the
group was first seen under). -/
structure GrpEntry where
  sessions : Nat := 0
  photos : Int := 0
  category : String := ""
  rawPhotos : Int := 0
  hitRatePhotos : Int := 0
  hitRate : Option ℚ := none
  missingRawSessions : Nat := 0
  invalidRawSessions : Nat := 0
  deriving DecidableEq

/-- Pointwise update of a string-keyed dict. -/
def updKey {β : Type} (m : String → Option β) (k : String) (v : β) :
    String → Option β :=
  fun x => if x = k then some v else m x

/-- One session of the category loop of
`_build_baseline_category_group_metadata`. -/
def catStep (cats : String → Option CatEntry) (row : SessionRow) :
    String → Option CatEntry :=
  let cat := orSentinel row.category "Uncategorized"
  let e := (cats cat).getD {}
  let e :=
    { e with sessions := e.sessions + 1,
             photos := e.photos + safeInt row.totalPhotos }
  let e :=
    match hitRateContrib row.totalPhotos row.totalRawPhotos with
    | none =>
      match row.totalRawPhotos with
      | none => { e with missingRawSessions := e.missingRawSessions + 1 }
      | some _ => { e with invalidRawSessions := e.invalidRawSessions + 1 }
    | some pc =>
      { e with hitRatePhotos := e.hitRatePhotos + pc.1,
               rawPhotos := e.rawPhotos + pc.2 }
  updKey cats cat e

/-- The final category pass: set `hit_rate` where `raw_photos > 0`. -/
def finalizeCat (cats : String → Option CatEntry) :
    String → Option CatEntry :=
  fun k =>
    (cats k).map fun e =>
      if 0 < e.rawPhotos then
        { e with
          hitRate := some ((e.hitRatePhotos : ℚ) / (e.rawPhotos : ℚ) * 100) }
      else e

/-- The category half of `_build_baseline_category_group_metadata`
(src/run_local.py, lines 1207–1259). -/
def baselineCategories (rows : List SessionRow) : String → Option CatEntry :=
  finalizeCat (rows.foldl catStep fun _ => none)

/-- One session of the group loop (creation also records the group-to-category
reverse index). -/
def grpStep
    (st : (String → Option GrpEntry) × (String → Option String))
    (row : SessionRow) :
    (String → Option GrpEntry) × (String → Option String) :=
  let grp := orSentinel row.groupName "Ungrouped"
  let cat := orSentinel row.category "Uncategorized"
  let created :=
    match st.1 grp with
    | none => (updKey st.1 grp { category := cat }, updKey st.2 grp cat)
    | some _ => st
  let e := (created.1 grp).getD {}
  let e :=
    { e with sessions := e.sessions + 1,
             photos := e.photos + safeInt row.totalPhotos }
  let e :=
    match hitRateContrib row.totalPhotos row.totalRawPhotos with
    | none =>
      match row.totalRawPhotos with
      | none => { e with missingRawSessions := e.missingRawSessions + 1 }
      | some _ => { e with invalidRawSessions := e.invalidRawSessions + 1 }
    | some pc =>
      { e with hitRatePhotos := e.hitRatePhotos + pc.1,
               rawPhotos := e.rawPhotos + pc.2 }
  (updKey created.1 grp e, created.2)

/-- The final group pass: set `hit_rate` where `raw_photos > 0`. -/
def finalizeGrp (grps : String → Option GrpEntry) :
    String → Option GrpEntry :=
  fun k =>
    (grps k).map fun e =>
      if 0 < e.rawPhotos then
        { e with
          hitRate := some ((e.hitRatePhotos : ℚ) / (e.rawPhotos : ℚ) * 100) }
      else e

/-- The group half of `_build_baseline_category_group_metadata`
(src/run_local.py, lines 1261–1296), with the group-to-category index. -/
def baselineGroups (rows : List SessionRow) :
    (String → Option GrpEntry) × (String → Option String) :=
  let st := rows.foldl grpStep (fun _ => none, fun _ => none)
  (finalizeGrp st.1, st.2)

/-- The session-info record `session_info_by_id` holds per id
(src/run_local.py, lines 1357–1364; the `name` entry is presentation
only). -/
structure SInfo where
  category : Option String := none
  group : Option String := none
  deriving DecidableEq

/-- Loop state of the photo walk in
`_overlay_filtered_category_group_counts`: the two dicts under construction
and the per-key sets of distinct session ids. -/
structure OverlayState where
  cats : String → Option CatEntry
  grps : String → Option GrpEntry
  catSess : String → List (Option Int)
  grpSess : String → List (Option Int)

/-- `set().add(x)` on the list-modelled id set. -/
def insertIfNew (l : List (Option Int)) (x : Option Int) :
    List (Option Int) :=
  if l.contains x then l else l ++ [x]

/-- One filtered photo of the walk in
`_overlay_filtered_category_group_counts`: map the photo back to its owning
session's category/group, create missing entries (with zeroed counts and no
hit-rate metadata, as in the source), bump photo counts, and record the
session id. -/
def overlayStep (sinfo : Int → Option SInfo) (st : OverlayState)
    (p : PhotoRecord) : OverlayState :=
  let si : SInfo :=
    match p.sessionId with
    | some id => (sinfo id).getD {}
    | none => {}
  let cat := orSentinel si.category "Uncategorized"
  let grp := orSentinel si.group "Ungrouped"
  let cats :=
    match st.cats cat with
    | none => updKey st.cats cat {}
    | some _ => st.cats
  let grps :=
    match st.grps grp with
    | none => updKey st.grps grp { category := cat }
    | some _ => st.grps
  let cats :=
    match cats cat with
    | some e => updKey cats cat { e with photos := e.photos + 1 }
    | none => cats
  let grps :=
    match grps grp with
    | some e => updKey grps grp { e with photos := e.photos + 1 }
    | none => grps
  { cats := cats
    grps := grps
    catSess := fun k =>
      if k = cat then insertIfNew (st.catSess k) p.sessionId else st.catSess k
    grpSess := fun k =>
      if k = grp then insertIfNew (st.grpSess k) p.sessionId
      else st.grpSess k }

/-- The starting state of the overlay walk: the baseline dicts with
`sessions`/`photos` zeroed (every baseline key stays present) and empty
id sets. -/
def overlayInit (baseCats : String → Option CatEntry)
    (baseGrps : String → Option GrpEntry) : OverlayState :=
  { cats := fun k => (baseCats k).map fun e =>
      { e with sessions := 0, photos := 0 }
    grps := fun k => (baseGrps k).map fun e =>
      { e with sessions := 0, photos := 0 }
    catSess := fun _ => []
    grpSess := fun _ => [] }

/-- Embedding of `_overlay_filtered_category_group_counts`
(src/run_local.py, lines 1298–1341): start from the zeroed baseline, walk
the filtered photos, then set each touched key's session count to its
number of distinct session ids. -/
def overlayFilteredCounts (baseCats : String → Option CatEntry)
    (baseGrps : String → Option GrpEntry) (sinfo : Int → Option SInfo)
    (filteredPhotos : List PhotoRecord) :
    (String → Option CatEntry) × (String → Option GrpEntry) :=
  let st := filteredPhotos.foldl (overlayStep sinfo)
    (overlayInit baseCats baseGrps)
  (fun k =>
      (st.cats k).map fun e =>
        if st.catSess k = [] then e
        else { e with sessions := (st.catSess k).length },
   fun k =>
      (st.grps k).map fun e =>
        if st.grpSess k = [] then e
        else { e with sessions := (st.grpSess k).length })

/-- The category a filtered photo is attributed to by the overlay walk. -/
def photoCategory (sinfo : Int → Option SInfo) (p : PhotoRecord) : String :=
  let si : SInfo :=
    match p.sessionId with
    | some id => (sinfo id).getD {}
    | none => {}
  orSentinel si.category "Uncategorized"

/-- The group a filtered photo is attributed to by the overlay walk. -/
def photoGroup (sinfo : Int → Option SInfo) (p : PhotoRecord) : String :=
  let si : SInfo :=
    match p.sessionId with
    | some id => (sinfo id).getD {}
    | none => {}
  orSentinel si.group "Ungrouped"

/-! ### Specification-side closed forms

The remaining definitions are not translations of source lines; they are the
closed (one-pass, `countP`-style) forms that the iterative source code is
proved equal to, plus one definition transcribing the spec's words for the
refinement comparison of the `lens_type` claim. -/

/-- Does the photo carry lens name `k` (with Python truthiness)? -/
def lensMatch (k : String) (p : PhotoRecord) : Bool :=
  truthyS p.lens && (p.lens == some k)

/-- Is the photo's (truthy) lens classified prime by the name heuristic? -/
def isPrimePhoto (p : PhotoRecord) : Bool :=
  truthyS p.lens && (classifyType (p.lens.getD "") == LensType.prime)

/-- Is the photo's (truthy) lens classified zoom by the name heuristic? -/
def isZoomPhoto (p : PhotoRecord) : Bool :=
  truthyS p.lens && (classifyType (p.lens.getD "") == LensType.zoom)

/-- Closed form of a string-keyed frequency counter over a photo list. -/
def freqS (val : PhotoRecord → Option String) (ps : List PhotoRecord) :
    Cnt String :=
  fun k => ps.countP fun p => truthyS (val p) && (val p == some k)

/-- Closed form of a rational-keyed frequency counter over a photo list. -/
def freqQ (val : PhotoRecord → Option ℚ) (ps : List PhotoRecord) : Cnt ℚ :=
  fun k => ps.countP fun p => truthyQ (val p) && (val p == some k)

/-- Closed form of an integer-keyed frequency counter over a photo list. -/
def freqI (val : PhotoRecord → Option Int) (ps : List PhotoRecord) : Cnt Int :=
  fun k => ps.countP fun p => truthyI (val p) && (val p == some k)

/-- Closed form of the per-lens breakdown for lens name `k`: present exactly
when some photo carries that lens, with every component a count over the
matching photos. -/
def bSpec (k : String) (ps : List PhotoRecord) : Option LensBreakdown :=
  if ps.countP (lensMatch k) = 0 then none
  else
    some
      { count := ps.countP (lensMatch k)
        shutterSpeed := fun v =>
          ps.countP fun p =>
            lensMatch k p && truthyS p.shutterSpeed &&
              (p.shutterSpeed == some v)
        aperture := fun v =>
          ps.countP fun p =>
            lensMatch k p && truthyQ p.aperture && (p.aperture == some v)
        iso := fun v =>
          ps.countP fun p =>
            lensMatch k p && truthyI p.iso && (p.iso == some v)
        exposureProgram := fun v =>
          ps.countP fun p =>
            lensMatch k p && truthyS p.exposureProgram &&
              (p.exposureProgram == some v)
        flashMode := fun v =>
          ps.countP fun p =>
            lensMatch k p && truthyS p.flashMode && (p.flashMode == some v)
        focalLength := fun v =>
          ps.countP fun p =>
            lensMatch k p && truthyQ p.focalLength &&
              (p.focalLength == some v) }

/-- Closed form of `aggregate (partition.map calcPhotos)`: the analysis every
partition of the population `ps` must aggregate to. -/
def specAnalysis (ps : List PhotoRecord) : Analysis :=
  { name := ""
    totalPhotos := ps.length
    totalRawPhotos := 0
    hitRate := none
    lensFreq := freqS (fun p => p.lens) ps
    cameraFreq := freqS (fun p => p.camera) ps
    shutterSpeedFreq := freqS (fun p => p.shutterSpeed) ps
    apertureFreq := freqQ (fun p => p.aperture) ps
    isoFreq := freqI (fun p => p.iso) ps
    exposureProgramFreq := freqS (fun p => p.exposureProgram) ps
    flashModeFreq := freqS (fun p => p.flashMode) ps
    focalLengthFreq := freqQ (fun p => p.focalLength) ps
    exposureBiasFreq := freqQ (fun p => p.exposureBias) ps
    timeOfDayFreq := Cnt.zero
    lensBreakdowns := fun k => bSpec k ps
    primeCount := ps.countP isPrimePhoto
    zoomCount := ps.countP isZoomPhoto }

/-- Closed form of the `total_raw` accumulator of `analyze_sessions`: the sum
of `total_raw_photos` over the sessions where that field is truthy. -/
def sumTruthyRaw (ss : List Session) : Int :=
  ((ss.filter fun s => truthyI s.totalRawPhotos).map fun s =>
      s.totalRawPhotos.getD 0).sum

/-- Transcription of the claimed `lens_type` heuristic ("a hyphen followed by
an `mm` substring"), for comparison with what the code does. -/
def specZoomHeuristic (s : String) : Bool :=
  hyphenThenMM s.data
where
  /-- Some `-` occurs with `mm` somewhere after it. -/
  hyphenThenMM : List Char → Bool
    | [] => false
    | '-' :: rest => containsMM rest || hyphenThenMM rest
    | _ :: rest => hyphenThenMM rest
  /-- Some suffix starts with `mm`. -/
  containsMM : List Char → Bool
    | 'm' :: 'm' :: _ => true
    | _ :: rest => containsMM rest
    | [] => false

/-! ## Theorems -/

/-- A fold of narrowing stages is one `filter` by the conjunction of the
active stage predicates. -/
theorem foldl_maybeFilter (qs : List (Option (PhotoRecord → Bool)))
    (ps : List PhotoRecord) :
    qs.foldl maybeFilter ps =
      ps.filter fun p =>
        qs.all fun q => match q with | none => true | some pr => pr p := by
  induction qs generalizing ps with
  | nil => simp [List.filter_true]
  | cons q qs ih =>
    cases q with
    | none =>
      rw [List.foldl_cons]
      show qs.foldl maybeFilter ps = _
      rw [ih]
      apply List.filter_congr
      intro x _
      simp [List.all_cons]
    | some pr =>
      rw [List.foldl_cons]
      show qs.foldl maybeFilter (ps.filter pr) = _
      rw [ih, List.filter_filter]
      apply List.filter_congr
      intro x _
      simp [List.all_cons, Bool.and_comm]

/-- `_filter_photos` is one pass of the per-photo predicate `photoPred`. -/
theorem filterPhotos_eq_filter (ps : List PhotoRecord) (f : FilterSpec) :
    filterPhotos ps f = ps.filter (photoPred f) := by
  rw [filterPhotos, foldl_maybeFilter]
  rfl

/-- C3 — Filter idempotence: filtering an already-filtered population with
the same spec is a no-op (and, the embedding being purely functional, the
input list is never mutated). -/
theorem filter_idempotent (ps : List PhotoRecord) (f : FilterSpec) :
    filterPhotos (filterPhotos ps f) f = filterPhotos ps f := by
  rw [filterPhotos_eq_filter ps f, filterPhotos_eq_filter, List.filter_filter]
  apply List.filter_congr
  intro x _
  exact Bool.and_self _

/-- C10 — A `focal_length` filter none of whose values parses as a number is
skipped entirely: the filter returns every photo, null focal lengths
included. -/
theorem focal_unparseable_noop (ps : List PhotoRecord) (r : PyRaw)
    (h : ∀ v ∈ valuesAsSet r, parseFloat v = none) :
    filterPhotos ps { focalLength := some r } = ps := by
  have hfv : focalVals r = [] := List.filterMap_eq_nil_iff.mpr h
  simp [filterPhotos, stageList, maybeFilter, focalStage, hfv,
    lensTypeStage]

/-- Witness for C10: the spec `{focal_length: ["abc", null]}` has no
numerically-parseable value, and filtering a one-photo population with a
null focal length returns it unchanged. -/
theorem focal_unparseable_noop_witness :
    (∀ v ∈ valuesAsSet (.vlist [.vStr "abc", .vNull]), parseFloat v = none) ∧
      filterPhotos [{ focalLength := none }]
          { focalLength := some (.vlist [.vStr "abc", .vNull]) } =
        [{ focalLength := none }] :=
  ⟨by decide,
   focal_unparseable_noop [{ focalLength := none }]
     (.vlist [.vStr "abc", .vNull]) (by decide)⟩

/-- `tolMatch` succeeds exactly on a finite target within strict `0.1`. -/
theorem tolMatch_eq_true (q : ℚ) (fv : PyFloat) :
    tolMatch q fv = true ↔ ∃ x, fv = .fin x ∧ |q - x| < 1 / 10 := by
  cases fv <;> simp [tolMatch]

/-- The per-photo predicate of a spec whose only present key is
`focal_length` (with a nonempty parsed value list) is the focal predicate. -/
theorem photoPred_focal (r : PyRaw) (p : PhotoRecord)
    (h : ¬focalVals r = []) :
    photoPred { focalLength := some r } p = focalPred (focalVals r) p := by
  have hemp : (focalVals r).isEmpty = false := by
    cases hfv : focalVals r with
    | nil => exact absurd hfv h
    | cons a l => rfl
  simp [photoPred, stageList, focalStage, lensTypeStage, hemp]

/-- The per-photo predicate of a spec whose only present key is `aperture`. -/
theorem photoPred_aperture (r : PyRaw) (p : PhotoRecord) :
    photoPred { aperture := some r } p = aperturePred r p := by
  simp [photoPred, stageList, focalStage, lensTypeStage]

/-- The per-photo predicate of a spec whose only present key is `iso`. -/
theorem photoPred_iso (r : PyRaw) (p : PhotoRecord) :
    photoPred { iso := some r } p = isoPred r p := by
  simp [photoPred, stageList, focalStage, lensTypeStage]

/-- C7 (counterexample) — the claim's "matches exactly when the photo has a
non-null focal length within strict 0.1 of an accepted numeric value" fails
on the code: a photo whose stored focal length is `0.0` (non-null, and
within 0.1 of the accepted numeric value `0.05`) is nevertheless excluded,
because the source guards with Python truthiness
(`p.focal_length and …`), under which `0.0` is falsy. -/
theorem focal_tolerance_counterexample :
    filterPhotos [{ focalLength := some 0 }]
        { focalLength := some (.scalar (.vNum (1 / 20))) } = [] ∧
      ({ focalLength := some 0 } : PhotoRecord).focalLength = some 0 ∧
      PyFloat.fin (1 / 20) ∈ focalVals (.scalar (.vNum (1 / 20))) ∧
      |(0 : ℚ) - 1 / 20| < 1 / 10 := by
  refine ⟨?_, rfl, ?_, ?_⟩
  · rw [filterPhotos_eq_filter]
    apply List.filter_eq_nil_iff.mpr
    intro a ha
    rw [List.mem_singleton] at ha
    subst ha
    rw [photoPred_focal _ _ (by decide)]
    simp [focalPred]
  · have hv : focalVals (.scalar (.vNum (1 / 20))) = [.fin (1 / 20)] := rfl
    rw [hv]
    exact List.mem_singleton.mpr rfl
  · rw [abs_lt]
    constructor <;> norm_num

/-- C7 (amended) — when at least one accepted value parses numerically, a
`focal_length` filter keeps exactly the photos with a non-null, *non-zero*
focal length within strict `0.1`mm of some parsed finite accepted value
(with no parseable value the constraint is skipped, see the
unparseable-values claim); aperture and iso filters keep exactly the photos
whose truthy value stringifies to one of the stringified accepted values —
equality of rendered strings, with no numeric tolerance.  Concretely, a
filter for focal length `85` matches stored `84.97` and does not match
`85.2`. -/
theorem focal_tolerance :
    (∀ (ps : List PhotoRecord) (r : PyRaw) (p : PhotoRecord),
      ¬focalVals r = [] →
        (p ∈ filterPhotos ps { focalLength := some r } ↔
          p ∈ ps ∧ ∃ q, p.focalLength = some q ∧ ¬q = 0 ∧
            ∃ x, PyFloat.fin x ∈ focalVals r ∧ |q - x| < 1 / 10)) ∧
      (∀ (ps : List PhotoRecord) (r : PyRaw) (p : PhotoRecord),
        p ∈ filterPhotos ps { aperture := some r } ↔
          p ∈ ps ∧ ∃ q, p.aperture = some q ∧ ¬q = 0 ∧
            floatStr q ∈ valuesAsStrSet r) ∧
      (∀ (ps : List PhotoRecord) (r : PyRaw) (p : PhotoRecord),
        p ∈ filterPhotos ps { iso := some r } ↔
          p ∈ ps ∧ ∃ n, p.iso = some n ∧ ¬n = 0 ∧
            toString n ∈ valuesAsStrSet r) ∧
      ({ focalLength := some (8497 / 100) } : PhotoRecord) ∈
        filterPhotos
          [{ focalLength := some (8497 / 100) },
           { focalLength := some (852 / 10) }]
          { focalLength := some (.scalar (.vInt 85)) } ∧
      ({ focalLength := some (852 / 10) } : PhotoRecord) ∉
        filterPhotos
          [{ focalLength := some (8497 / 100) },
           { focalLength := some (852 / 10) }]
          { focalLength := some (.scalar (.vInt 85)) } := by
  have hfocal : ∀ (ps : List PhotoRecord) (r : PyRaw) (p : PhotoRecord),
      ¬focalVals r = [] →
        (p ∈ filterPhotos ps { focalLength := some r } ↔
          p ∈ ps ∧ ∃ q, p.focalLength = some q ∧ ¬q = 0 ∧
            ∃ x, PyFloat.fin x ∈ focalVals r ∧ |q - x| < 1 / 10) := by
    intro ps r p h
    rw [filterPhotos_eq_filter, List.mem_filter, photoPred_focal r p h]
    cases hf : p.focalLength with
    | none => simp [focalPred, hf]
    | some q =>
      simp only [focalPred, hf, Bool.and_eq_true, Bool.not_eq_eq_eq_not,
        Bool.not_true, decide_eq_false_iff_not, List.any_eq_true,
        tolMatch_eq_true, Option.some.injEq]
      constructor
      · rintro ⟨hmem, hq, fv, hfv, x, rfl, hx⟩
        exact ⟨hmem, q, rfl, hq, x, hfv, hx⟩
      · rintro ⟨hmem, q', hq', hq0, x, hfv, hx⟩
        cases hq'
        exact ⟨hmem, hq0, .fin x, hfv, x, rfl, hx⟩
  have hvals : focalVals (.scalar (.vInt 85)) = [.fin ((85 : Int) : ℚ)] :=
    rfl
  refine ⟨hfocal, ?_, ?_, ?_, ?_⟩
  · intro ps r p
    rw [filterPhotos_eq_filter, List.mem_filter, photoPred_aperture r p]
    cases ha : p.aperture with
    | none => simp [aperturePred, ha]
    | some q =>
      simp [aperturePred, ha, List.contains, List.elem_iff]
  · intro ps r p
    rw [filterPhotos_eq_filter, List.mem_filter, photoPred_iso r p]
    cases hi : p.iso with
    | none => simp [isoPred, hi]
    | some n =>
      simp [isoPred, hi, List.contains, List.elem_iff]
  · refine (hfocal _ _ _ (by decide)).mpr
      ⟨List.mem_cons_self _ _, 8497 / 100, rfl, by norm_num,
        (85 : Int), ?_, ?_⟩
    · rw [hvals]
      exact List.mem_singleton.mpr rfl
    · rw [abs_lt]
      constructor <;> push_cast <;> norm_num
  · intro hmem
    obtain ⟨-, q, hq, -, x, hx, hlt⟩ :=
      (hfocal _ _ _ (by decide)).mp hmem
    obtain rfl : (852 : ℚ) / 10 = q := Option.some.inj hq
    rw [hvals, List.mem_singleton] at hx
    obtain rfl : x = ((85 : Int) : ℚ) := PyFloat.fin.inj hx
    rw [abs_lt] at hlt
    have := hlt.2
    push_cast at this
    norm_num at this

/-- Witness for C7: applying the amended tolerance description at the
concrete spec `{focal_length: 85}` and the photo with stored `84.97`. -/
theorem focal_tolerance_witness :
    ({ focalLength := some (8497 / 100) } : PhotoRecord) ∈
      filterPhotos [{ focalLength := some (8497 / 100) }]
        { focalLength := some (.scalar (.vInt 85)) } :=
  (focal_tolerance.1 [{ focalLength := some (8497 / 100) }]
        (.scalar (.vInt 85)) { focalLength := some (8497 / 100) }
        (by decide)).mpr
    ⟨List.mem_singleton.mpr rfl, 8497 / 100, rfl, by norm_num, (85 : Int),
      by rw [show focalVals (.scalar (.vInt 85)) = [.fin ((85 : Int) : ℚ)]
          from rfl]
         exact List.mem_singleton.mpr rfl,
      by rw [abs_lt]; constructor <;> push_cast <;> norm_num⟩

/-! ### Characterisation of `calculate_statistics` -/

/-- Pointwise value of a truthiness-guarded string-counter increment. -/
theorem Cnt.incrS_apply (c : Cnt String) (o : Option String) (k : String) :
    c.incrS o k = c k + (if truthyS o && (o == some k) then 1 else 0) := by
  cases o with
  | none => simp [Cnt.incrS, truthyS]
  | some v =>
    by_cases hv : v = ""
    · subst hv
      simp [Cnt.incrS, truthyS]
    · by_cases hk : k = v
      · subst hk
        simp [Cnt.incrS, Cnt.incr, truthyS, hv]
      · simp [Cnt.incrS, Cnt.incr, truthyS, hv, hk, Ne.symm hk]

/-- Pointwise value of a truthiness-guarded rational-counter increment. -/
theorem Cnt.incrQ_apply (c : Cnt ℚ) (o : Option ℚ) (k : ℚ) :
    c.incrQ o k = c k + (if truthyQ o && (o == some k) then 1 else 0) := by
  cases o with
  | none => simp [Cnt.incrQ, truthyQ]
  | some v =>
    by_cases hv : v = 0
    · subst hv
      simp [Cnt.incrQ, truthyQ]
    · by_cases hk : k = v
      · subst hk
        simp [Cnt.incrQ, Cnt.incr, truthyQ, hv]
      · simp [Cnt.incrQ, Cnt.incr, truthyQ, hv, hk, Ne.symm hk]

/-- Pointwise value of a truthiness-guarded integer-counter increment. -/
theorem Cnt.incrI_apply (c : Cnt Int) (o : Option Int) (k : Int) :
    c.incrI o k = c k + (if truthyI o && (o == some k) then 1 else 0) := by
  cases o with
  | none => simp [Cnt.incrI, truthyI]
  | some v =>
    by_cases hv : v = 0
    · subst hv
      simp [Cnt.incrI, truthyI]
    · by_cases hk : k = v
      · subst hk
        simp [Cnt.incrI, Cnt.incr, truthyI, hv]
      · simp [Cnt.incrI, Cnt.incr, truthyI, hv, hk, Ne.symm hk]

/-- Normal form of one `calculate_statistics` loop iteration: every field is
updated independently of the others. -/
theorem statsStep_eq (s : SessionStats) (p : PhotoRecord) :
    statsStep s p =
      { s with
        lensFreq := s.lensFreq.incrS p.lens
        cameraFreq := s.cameraFreq.incrS p.camera
        shutterSpeedFreq := s.shutterSpeedFreq.incrS p.shutterSpeed
        apertureFreq := s.apertureFreq.incrQ p.aperture
        isoFreq := s.isoFreq.incrI p.iso
        exposureProgramFreq := s.exposureProgramFreq.incrS p.exposureProgram
        flashModeFreq := s.flashModeFreq.incrS p.flashMode
        focalLengthFreq := s.focalLengthFreq.incrQ p.focalLength
        exposureBiasFreq := s.exposureBiasFreq.incrQ p.exposureBias
        lensBreakdowns := fun k =>
          if lensMatch k p then
            some (breakdownAddPhoto ((s.lensBreakdowns k).getD {}) p)
          else s.lensBreakdowns k
        primeCount := s.primeCount + (if isPrimePhoto p then 1 else 0)
        zoomCount := s.zoomCount + (if isZoomPhoto p then 1 else 0) } := by
  cases hl : p.lens with
  | none =>
    ext k
    all_goals simp [statsStep, hl, lensMatch, isPrimePhoto, isZoomPhoto,
      truthyS]
  | some lname =>
    by_cases he : lname = ""
    · subst he
      ext k
      all_goals simp [statsStep, hl, lensMatch, isPrimePhoto, isZoomPhoto,
        truthyS]
    · cases hcl : classifyType lname <;>
        · ext k
          all_goals
            first
            | (simp [statsStep, hl, he, hcl, isPrimePhoto, isZoomPhoto,
                truthyS]
               done)
            | (by_cases hk : k = lname
               · subst hk
                 simp [statsStep, hl, he, hcl, lensMatch, truthyS]
               · simp [statsStep, hl, he, hcl, lensMatch, truthyS, hk,
                   Ne.symm hk])

/-- Transport of a field projection through the statistics fold. -/
theorem foldl_statsStep_proj {β : Type} (proj : SessionStats → β)
    (upd : β → PhotoRecord → β)
    (hstep : ∀ s p, proj (statsStep s p) = upd (proj s) p)
    (ps : List PhotoRecord) :
    ∀ init : SessionStats,
      proj (ps.foldl statsStep init) = ps.foldl upd (proj init) := by
  induction ps with
  | nil => intro init; rfl
  | cons p ps ih =>
    intro init
    rw [List.foldl_cons, List.foldl_cons, ih, hstep]

/-- A truthiness-guarded counter fold counts matching photos. -/
theorem foldl_cnt_count {α : Type} [DecidableEq α] [BEq α] [LawfulBEq α]
    (g : PhotoRecord → Option α) (tr : Option α → Bool)
    (upd : Cnt α → PhotoRecord → Cnt α)
    (happ : ∀ c p k, upd c p k =
      c k + (if tr (g p) && (g p == some k) then 1 else 0))
    (ps : List PhotoRecord) :
    ∀ (c0 : Cnt α) (k : α),
      ps.foldl upd c0 k =
        c0 k + ps.countP fun p => tr (g p) && (g p == some k) := by
  induction ps with
  | nil => intro c0 k; simp
  | cons p ps ih =>
    intro c0 k
    rw [List.foldl_cons, ih, happ, List.countP_cons]
    omega

/-- A guarded add fold counts matching photos. -/
theorem foldl_addIf_count (f : PhotoRecord → Bool) (ps : List PhotoRecord) :
    ∀ n0 : Nat,
      ps.foldl (fun n p => n + if f p then 1 else 0) n0 =
        n0 + ps.countP f := by
  induction ps with
  | nil => intro n0; simp
  | cons p ps ih =>
    intro n0
    rw [List.foldl_cons, ih, List.countP_cons]
    omega

/-- The breakdown fold over a photo run, in closed form. -/
theorem foldl_bAdd_char (l : List PhotoRecord) :
    ∀ b0 : LensBreakdown,
      l.foldl breakdownAddPhoto b0 =
        { count := b0.count + l.length
          shutterSpeed :=
            b0.shutterSpeed.add (freqS (fun p => p.shutterSpeed) l)
          aperture := b0.aperture.add (freqQ (fun p => p.aperture) l)
          iso := b0.iso.add (freqI (fun p => p.iso) l)
          exposureProgram :=
            b0.exposureProgram.add (freqS (fun p => p.exposureProgram) l)
          flashMode := b0.flashMode.add (freqS (fun p => p.flashMode) l)
          focalLength := b0.focalLength.add (freqQ (fun p => p.focalLength) l) }
    := by
  induction l with
  | nil =>
    intro b0
    ext k
    all_goals simp [freqS, freqQ, freqI, Cnt.add]
  | cons p l ih =>
    intro b0
    rw [List.foldl_cons, ih]
    ext k
    all_goals
      simp [breakdownAddPhoto, freqS, freqQ, freqI, Cnt.add, List.countP_cons,
        Cnt.incrS_apply, Cnt.incrQ_apply, Cnt.incrI_apply]
    all_goals omega

/-- `total_count` is the session's `total_photos` field, untouched by the
photo loop. -/
theorem calculateStatistics_totalCount (s : Session) :
    (calculateStatistics s).totalCount = s.totalPhotos := by
  unfold calculateStatistics
  rw [foldl_statsStep_proj (fun st => st.totalCount) (fun n _ => n)
      (fun s p => by rw [statsStep_eq]) s.photos]
  induction s.photos with
  | nil => rfl
  | cons p ps ih => rw [List.foldl_cons]; exact ih

/-- The lens counter of the one-pass statistics, in closed form. -/
theorem calcPhotos_lensFreq (ps : List PhotoRecord) :
    (calcPhotos ps).lensFreq = freqS (fun p => p.lens) ps := by
  funext k
  unfold calcPhotos calculateStatistics sessionOfPhotos
  rw [foldl_statsStep_proj (fun st => st.lensFreq)
      (fun c p => c.incrS p.lens) (fun s p => by rw [statsStep_eq]) ps,
    foldl_cnt_count (fun p => p.lens) truthyS _
      (fun c p k => Cnt.incrS_apply c p.lens k) ps]
  simp [freqS, freqQ, freqI, Cnt.zero]

/-- The camera counter of the one-pass statistics, in closed form. -/
theorem calcPhotos_cameraFreq (ps : List PhotoRecord) :
    (calcPhotos ps).cameraFreq = freqS (fun p => p.camera) ps := by
  funext k
  unfold calcPhotos calculateStatistics sessionOfPhotos
  rw [foldl_statsStep_proj (fun st => st.cameraFreq)
      (fun c p => c.incrS p.camera) (fun s p => by rw [statsStep_eq]) ps,
    foldl_cnt_count (fun p => p.camera) truthyS _
      (fun c p k => Cnt.incrS_apply c p.camera k) ps]
  simp [freqS, freqQ, freqI, Cnt.zero]

/-- The shutter-speed counter of the one-pass statistics, in closed form. -/
theorem calcPhotos_shutterSpeedFreq (ps : List PhotoRecord) :
    (calcPhotos ps).shutterSpeedFreq = freqS (fun p => p.shutterSpeed) ps := by
  funext k
  unfold calcPhotos calculateStatistics sessionOfPhotos
  rw [foldl_statsStep_proj (fun st => st.shutterSpeedFreq)
      (fun c p => c.incrS p.shutterSpeed)
      (fun s p => by rw [statsStep_eq]) ps,
    foldl_cnt_count (fun p => p.shutterSpeed) truthyS _
      (fun c p k => Cnt.incrS_apply c p.shutterSpeed k) ps]
  simp [freqS, freqQ, freqI, Cnt.zero]

/-- The aperture counter of the one-pass statistics, in closed form. -/
theorem calcPhotos_apertureFreq (ps : List PhotoRecord) :
    (calcPhotos ps).apertureFreq = freqQ (fun p => p.aperture) ps := by
  funext k
  unfold calcPhotos calculateStatistics sessionOfPhotos
  rw [foldl_statsStep_proj (fun st => st.apertureFreq)
      (fun c p => c.incrQ p.aperture) (fun s p => by rw [statsStep_eq]) ps,
    foldl_cnt_count (fun p => p.aperture) truthyQ _
      (fun c p k => Cnt.incrQ_apply c p.aperture k) ps]
  simp [freqS, freqQ, freqI, Cnt.zero]

/-- The iso counter of the one-pass statistics, in closed form. -/
theorem calcPhotos_isoFreq (ps : List PhotoRecord) :
    (calcPhotos ps).isoFreq = freqI (fun p => p.iso) ps := by
  funext k
  unfold calcPhotos calculateStatistics sessionOfPhotos
  rw [foldl_statsStep_proj (fun st => st.isoFreq)
      (fun c p => c.incrI p.iso) (fun s p => by rw [statsStep_eq]) ps,
    foldl_cnt_count (fun p => p.iso) truthyI _
      (fun c p k => Cnt.incrI_apply c p.iso k) ps]
  simp [freqS, freqQ, freqI, Cnt.zero]

/-- The exposure-program counter of the one-pass statistics, in closed
form. -/
theorem calcPhotos_exposureProgramFreq (ps : List PhotoRecord) :
    (calcPhotos ps).exposureProgramFreq =
      freqS (fun p => p.exposureProgram) ps := by
  funext k
  unfold calcPhotos calculateStatistics sessionOfPhotos
  rw [foldl_statsStep_proj (fun st => st.exposureProgramFreq)
      (fun c p => c.incrS p.exposureProgram)
      (fun s p => by rw [statsStep_eq]) ps,
    foldl_cnt_count (fun p => p.exposureProgram) truthyS _
      (fun c p k => Cnt.incrS_apply c p.exposureProgram k) ps]
  simp [freqS, freqQ, freqI, Cnt.zero]

/-- The flash-mode counter of the one-pass statistics, in closed form. -/
theorem calcPhotos_flashModeFreq (ps : List PhotoRecord) :
    (calcPhotos ps).flashModeFreq = freqS (fun p => p.flashMode) ps := by
  funext k
  unfold calcPhotos calculateStatistics sessionOfPhotos
  rw [foldl_statsStep_proj (fun st => st.flashModeFreq)
      (fun c p => c.incrS p.flashMode) (fun s p => by rw [statsStep_eq]) ps,
    foldl_cnt_count (fun p => p.flashMode) truthyS _
      (fun c p k => Cnt.incrS_apply c p.flashMode k) ps]
  simp [freqS, freqQ, freqI, Cnt.zero]

/-- The focal-length counter of the one-pass statistics, in closed form. -/
theorem calcPhotos_focalLengthFreq (ps : List PhotoRecord) :
    (calcPhotos ps).focalLengthFreq = freqQ (fun p => p.focalLength) ps := by
  funext k
  unfold calcPhotos calculateStatistics sessionOfPhotos
  rw [foldl_statsStep_proj (fun st => st.focalLengthFreq)
      (fun c p => c.incrQ p.focalLength)
      (fun s p => by rw [statsStep_eq]) ps,
    foldl_cnt_count (fun p => p.focalLength) truthyQ _
      (fun c p k => Cnt.incrQ_apply c p.focalLength k) ps]
  simp [freqS, freqQ, freqI, Cnt.zero]

/-- The exposure-bias counter of the one-pass statistics, in closed form. -/
theorem calcPhotos_exposureBiasFreq (ps : List PhotoRecord) :
    (calcPhotos ps).exposureBiasFreq = freqQ (fun p => p.exposureBias) ps := by
  funext k
  unfold calcPhotos calculateStatistics sessionOfPhotos
  rw [foldl_statsStep_proj (fun st => st.exposureBiasFreq)
      (fun c p => c.incrQ p.exposureBias)
      (fun s p => by rw [statsStep_eq]) ps,
    foldl_cnt_count (fun p => p.exposureBias) truthyQ _
      (fun c p k => Cnt.incrQ_apply c p.exposureBias k) ps]
  simp [freqS, freqQ, freqI, Cnt.zero]

/-- The prime count of the one-pass statistics, in closed form. -/
theorem calcPhotos_primeCount (ps : List PhotoRecord) :
    (calcPhotos ps).primeCount = ps.countP isPrimePhoto := by
  unfold calcPhotos calculateStatistics sessionOfPhotos
  rw [foldl_statsStep_proj (fun st => st.primeCount)
      (fun n p => n + if isPrimePhoto p then 1 else 0)
      (fun s p => by rw [statsStep_eq]) ps,
    foldl_addIf_count]
  simp

/-- The zoom count of the one-pass statistics, in closed form. -/
theorem calcPhotos_zoomCount (ps : List PhotoRecord) :
    (calcPhotos ps).zoomCount = ps.countP isZoomPhoto := by
  unfold calcPhotos calculateStatistics sessionOfPhotos
  rw [foldl_statsStep_proj (fun st => st.zoomCount)
      (fun n p => n + if isZoomPhoto p then 1 else 0)
      (fun s p => by rw [statsStep_eq]) ps,
    foldl_addIf_count]
  simp

/-- The conditional breakdown fold, in closed form over the matching run. -/
theorem foldl_condAdd (k : String) (ps : List PhotoRecord) :
    ∀ acc0 : Option LensBreakdown,
      ps.foldl
          (fun acc p =>
            if lensMatch k p then
              some (breakdownAddPhoto (acc.getD {}) p)
            else acc)
          acc0 =
        if ps.filter (lensMatch k) = [] then acc0
        else
          some ((ps.filter (lensMatch k)).foldl breakdownAddPhoto
            (acc0.getD {})) := by
  induction ps with
  | nil => intro acc0; simp
  | cons p ps ih =>
    intro acc0
    rw [List.foldl_cons]
    cases hm : lensMatch k p with
    | false => rw [ih]; simp [List.filter_cons, hm]
    | true =>
      rw [ih]
      simp only [List.filter_cons, hm, if_true]
      cases hfil : ps.filter (lensMatch k) with
      | nil => simp
      | cons q l => simp

/-- The per-lens breakdown of the one-pass statistics equals its closed
form. -/
theorem calcPhotos_lensBreakdowns (ps : List PhotoRecord) (k : String) :
    (calcPhotos ps).lensBreakdowns k = bSpec k ps := by
  unfold calcPhotos calculateStatistics sessionOfPhotos
  rw [foldl_statsStep_proj (fun st => st.lensBreakdowns k)
      (fun acc p =>
        if lensMatch k p then some (breakdownAddPhoto (acc.getD {}) p)
        else acc)
      (fun s p => by rw [statsStep_eq]) ps,
    foldl_condAdd]
  by_cases hfil : ps.filter (lensMatch k) = []
  · have h0 : ps.countP (lensMatch k) = 0 := by
      rw [List.countP_eq_length_filter, hfil]
      rfl
    simp [bSpec, h0, hfil]
  · have h0 : ¬ps.countP (lensMatch k) = 0 := by
      rw [List.countP_eq_length_filter]
      simpa using hfil
    rw [if_neg hfil, foldl_bAdd_char]
    simp only [bSpec, h0, if_false]
    congr 1
    ext v
    · show (({} : LensBreakdown).count : Nat) + _ = _
      simp [List.countP_eq_length_filter]
    all_goals
      simp only [Cnt.add, Cnt.zero, freqS, freqQ, freqI, Option.getD_none,
        List.countP_filter]
    all_goals
      show 0 + _ = _
      rw [Nat.zero_add]
    all_goals
      refine List.countP_congr fun x _ => ?_
      cases lensMatch k x <;> simp

/-- The breakdown-dict merge of `add_session_stats` against closed forms:
merging the breakdown of `g` into that of `xs` gives that of `xs ++ g`. -/
theorem bSpec_append (k : String) (xs g : List PhotoRecord) :
    (match bSpec k g with
      | none => bSpec k xs
      | some b => some (mergeBreakdown ((bSpec k xs).getD {}) b)) =
      bSpec k (xs ++ g) := by
  by_cases hg : g.countP (lensMatch k) = 0
  · have hzero : ∀ (pr : PhotoRecord → Bool),
        (∀ x, pr x = true → lensMatch k x = true) → g.countP pr = 0 := by
      intro pr hpr
      rw [List.countP_eq_zero]
      intro a ha hc
      exact absurd (List.countP_eq_zero.mp hg a ha) (by simp [hpr a hc])
    rw [show bSpec k g = none from by simp [bSpec, hg]]
    by_cases hxs : xs.countP (lensMatch k) = 0
    · have : (xs ++ g).countP (lensMatch k) = 0 := by
        rw [List.countP_append, hxs, hg]
      simp [bSpec, hxs, this]
    · have hne : ¬(xs ++ g).countP (lensMatch k) = 0 := by
        rw [List.countP_append]
        omega
      simp only [bSpec, hxs, hne, if_false]
      congr 1
      ext v
      all_goals
        simp only [List.countP_append]
      · rw [hg]
        omega
      all_goals
        rw [hzero _ (fun x hx => by
          revert hx
          cases hlm : lensMatch k x <;> simp)]
      all_goals omega
  · have hne : ¬(xs ++ g).countP (lensMatch k) = 0 := by
      rw [List.countP_append]
      omega
    rw [show bSpec k g =
        some
          { count := g.countP (lensMatch k)
            shutterSpeed := fun v =>
              g.countP fun p =>
                lensMatch k p && truthyS p.shutterSpeed &&
                  (p.shutterSpeed == some v)
            aperture := fun v =>
              g.countP fun p =>
                lensMatch k p && truthyQ p.aperture && (p.aperture == some v)
            iso := fun v =>
              g.countP fun p =>
                lensMatch k p && truthyI p.iso && (p.iso == some v)
            exposureProgram := fun v =>
              g.countP fun p =>
                lensMatch k p && truthyS p.exposureProgram &&
                  (p.exposureProgram == some v)
            flashMode := fun v =>
              g.countP fun p =>
                lensMatch k p && truthyS p.flashMode &&
                  (p.flashMode == some v)
            focalLength := fun v =>
              g.countP fun p =>
                lensMatch k p && truthyQ p.focalLength &&
                  (p.focalLength == some v) }
      from by simp [bSpec, hg]]
    by_cases hxs : xs.countP (lensMatch k) = 0
    · have hzero : ∀ (pr : PhotoRecord → Bool),
          (∀ x, pr x = true → lensMatch k x = true) → xs.countP pr = 0 := by
        intro pr hpr
        rw [List.countP_eq_zero]
        intro a ha hc
        exact absurd (List.countP_eq_zero.mp hxs a ha) (by simp [hpr a hc])
      simp only [bSpec, hxs, if_true, hne, if_false]
      congr 1
      ext v
      all_goals
        simp only [mergeBreakdown, Cnt.add, List.countP_append,
          Option.getD_some, Option.getD_none]
      · show 0 + g.countP (lensMatch k) = xs.countP (lensMatch k) + _
        omega
      all_goals
        show (0 : Nat) + _ = _
        rw [hzero _ (fun x hx => by
          revert hx
          cases hlm : lensMatch k x <;> simp)]
    · simp only [bSpec, hxs, if_false, hne]
      congr 1
      ext v
      all_goals
        simp only [mergeBreakdown, Cnt.add, List.countP_append,
          Option.getD_some]

/-- The aggregator applied to per-group statistics yields the closed-form
analysis of the concatenated population. -/
theorem aggregate_calc_eq_spec (parts : List (List PhotoRecord)) :
    aggregate (parts.map calcPhotos) = specAnalysis parts.flatten := by
  induction parts using List.reverseRecOn with
  | nil =>
    ext k
    all_goals
      simp [aggregate, specAnalysis, freqS, freqQ, freqI, bSpec, Cnt.zero]
  | append_singleton xs g ih =>
    rw [List.map_append]
    simp only [List.map_cons, List.map_nil]
    rw [show aggregate ((xs.map calcPhotos) ++ [calcPhotos g])
        = (aggregate (xs.map calcPhotos)).addSessionStats (calcPhotos g)
      from by simp [aggregate, List.foldl_append], ih]
    have hflat : (xs ++ [g]).flatten = xs.flatten ++ g := by
      simp [List.flatten_append]
    rw [hflat]
    refine Analysis.ext rfl ?_ rfl rfl ?_ ?_ ?_ ?_ ?_ ?_ ?_ ?_ ?_ rfl ?_ ?_ ?_
    · show xs.flatten.length + (calcPhotos g).totalCount = _
      rw [show (calcPhotos g).totalCount = g.length from
        calculateStatistics_totalCount _]
      simp [specAnalysis]
    · funext k
      show Cnt.add _ (calcPhotos g).lensFreq k = _
      rw [calcPhotos_lensFreq]
      simp [specAnalysis, Cnt.add, freqS, List.countP_append]
    · funext k
      show Cnt.add _ (calcPhotos g).cameraFreq k = _
      rw [calcPhotos_cameraFreq]
      simp [specAnalysis, Cnt.add, freqS, List.countP_append]
    · funext k
      show Cnt.add _ (calcPhotos g).shutterSpeedFreq k = _
      rw [calcPhotos_shutterSpeedFreq]
      simp [specAnalysis, Cnt.add, freqS, List.countP_append]
    · funext k
      show Cnt.add _ (calcPhotos g).apertureFreq k = _
      rw [calcPhotos_apertureFreq]
      simp [specAnalysis, Cnt.add, freqQ, List.countP_append]
    · funext k
      show Cnt.add _ (calcPhotos g).isoFreq k = _
      rw [calcPhotos_isoFreq]
      simp [specAnalysis, Cnt.add, freqI, List.countP_append]
    · funext k
      show Cnt.add _ (calcPhotos g).exposureProgramFreq k = _
      rw [calcPhotos_exposureProgramFreq]
      simp [specAnalysis, Cnt.add, freqS, List.countP_append]
    · funext k
      show Cnt.add _ (calcPhotos g).flashModeFreq k = _
      rw [calcPhotos_flashModeFreq]
      simp [specAnalysis, Cnt.add, freqS, List.countP_append]
    · funext k
      show Cnt.add _ (calcPhotos g).focalLengthFreq k = _
      rw [calcPhotos_focalLengthFreq]
      simp [specAnalysis, Cnt.add, freqQ, List.countP_append]
    · funext k
      show Cnt.add _ (calcPhotos g).exposureBiasFreq k = _
      rw [calcPhotos_exposureBiasFreq]
      simp [specAnalysis, Cnt.add, freqQ, List.countP_append]
    · funext k
      show (match (calcPhotos g).lensBreakdowns k with
        | none => bSpec k xs.flatten
        | some b => some (mergeBreakdown ((bSpec k xs.flatten).getD {}) b)) =
          bSpec k (xs.flatten ++ g)
      rw [calcPhotos_lensBreakdowns]
      exact bSpec_append k xs.flatten g
    · show _ + (calcPhotos g).primeCount = _
      rw [calcPhotos_primeCount]
      simp [specAnalysis, List.countP_append]
    · show _ + (calcPhotos g).zoomCount = _
      rw [calcPhotos_zoomCount]
      simp [specAnalysis, List.countP_append]

/-- The closed-form breakdown is permutation-invariant. -/
theorem bSpec_perm (k : String) {xs ys : List PhotoRecord}
    (h : xs.Perm ys) : bSpec k xs = bSpec k ys := by
  unfold bSpec
  rw [h.countP_eq]
  by_cases h0 : ys.countP (lensMatch k) = 0
  · simp [h0]
  · simp only [h0, if_false]
    congr 1
    ext v
    all_goals simp [h.countP_eq]

/-- The closed-form analysis is permutation-invariant. -/
theorem specAnalysis_perm {xs ys : List PhotoRecord} (h : xs.Perm ys) :
    specAnalysis xs = specAnalysis ys := by
  refine Analysis.ext rfl h.length_eq rfl rfl ?_ ?_ ?_ ?_ ?_ ?_ ?_ ?_ ?_ rfl
      ?_ ?_ ?_ <;>
    first
    | (funext k
       simp [specAnalysis, freqS, freqQ, freqI, h.countP_eq]
       done)
    | exact funext fun k => bSpec_perm k h
    | exact h.countP_eq _

/-- C2 — Aggregation is partition- and order-independent: aggregating the
per-group statistics of any two partitions of the same photo population (in
any order) yields identical analyses — same `total_photos`, same nine
frequency counters, same prime/zoom counts, and the same per-lens
breakdowns, merged counter-by-counter. -/
theorem aggregation_partition_independent
    (partsA partsB : List (List PhotoRecord))
    (h : partsA.flatten.Perm partsB.flatten) :
    aggregate (partsA.map calcPhotos) = aggregate (partsB.map calcPhotos) := by
  rw [aggregate_calc_eq_spec, aggregate_calc_eq_spec]
  exact specAnalysis_perm h

/-- Witness for C2: a three-photo population split as `{p1} ∪ {p2, p3}`
versus `{p3} ∪ {p1} ∪ {p2}` aggregates identically. -/
theorem aggregation_partition_independent_witness :
    ([[{ lens := some "FE 85mm F1.4 GM II" }],
        [{ lens := some "24-70mm F2.8 DG DN" }, { camera := some "A7IV" }]] :
          List (List PhotoRecord)).flatten.Perm
        ([[{ camera := some "A7IV" }], [{ lens := some "FE 85mm F1.4 GM II" }],
          [{ lens := some "24-70mm F2.8 DG DN" }]] :
            List (List PhotoRecord)).flatten ∧
      aggregate
          (([[{ lens := some "FE 85mm F1.4 GM II" }],
              [{ lens := some "24-70mm F2.8 DG DN" },
               { camera := some "A7IV" }]] :
            List (List PhotoRecord)).map calcPhotos) =
        aggregate
          (([[{ camera := some "A7IV" }],
              [{ lens := some "FE 85mm F1.4 GM II" }],
              [{ lens := some "24-70mm F2.8 DG DN" }]] :
            List (List PhotoRecord)).map calcPhotos) :=
  ⟨by decide, aggregation_partition_independent _ _ (by decide)⟩

/-- Two pointwise-disjoint counts never exceed the list length. -/
theorem countP_disjoint_le {α : Type} (p q : α → Bool) (l : List α)
    (hd : ∀ x, ¬(p x = true ∧ q x = true)) :
    l.countP p + l.countP q ≤ l.length := by
  induction l with
  | nil => simp
  | cons a l ih =>
    rw [List.countP_cons, List.countP_cons, List.length_cons]
    have := hd a
    cases hp : p a <;> cases hq : q a <;> simp_all <;> omega

/-- C6 — Prime/zoom asymmetry: the statistics pass counts, among the photos
with a truthy lens, exactly those whose name classifies prime (resp. zoom);
an unknown classification increments neither counter, so
`prime_count + zoom_count ≤ total_count` with strict inequality possible —
e.g. one photo with lens "Unknown Lens XYZ" (no mm-pattern) yields prime 0,
zoom 0, total 1. -/
theorem prime_zoom_asymmetry :
    (∀ ps : List PhotoRecord,
      (calcPhotos ps).primeCount = ps.countP isPrimePhoto ∧
        (calcPhotos ps).zoomCount = ps.countP isZoomPhoto ∧
        (calcPhotos ps).primeCount + (calcPhotos ps).zoomCount ≤
          (calcPhotos ps).totalCount) ∧
      classifyType "Unknown Lens XYZ" = LensType.unknown ∧
      (calcPhotos [{ lens := some "Unknown Lens XYZ" }]).primeCount = 0 ∧
      (calcPhotos [{ lens := some "Unknown Lens XYZ" }]).zoomCount = 0 ∧
      (calcPhotos [{ lens := some "Unknown Lens XYZ" }]).totalCount = 1 := by
  refine ⟨?_, by decide, by decide, by decide, by decide⟩
  intro ps
  refine ⟨calcPhotos_primeCount ps, calcPhotos_zoomCount ps, ?_⟩
  rw [calcPhotos_primeCount, calcPhotos_zoomCount,
    show (calcPhotos ps).totalCount = ps.length from
      calculateStatistics_totalCount _]
  refine countP_disjoint_le _ _ _ fun x hx => ?_
  obtain ⟨hp, hz⟩ := hx
  simp only [isPrimePhoto, isZoomPhoto, Bool.and_eq_true, beq_iff_eq] at hp hz
  rw [hp.2] at hz
  exact absurd hz.2 (by decide)

/-- Pointwise sums of maps distribute. -/
theorem sum_map_add {κ : Type} (ls : List κ) (f g : κ → Nat) :
    (ls.map fun k => f k + g k).sum = (ls.map f).sum + (ls.map g).sum := by
  induction ls with
  | nil => simp
  | cons k ls ih => simp [ih]; omega

/-- At most one key of a duplicate-free list can own a given photo. -/
theorem sum_indicator_le_one {κ : Type} [DecidableEq κ]
    (P : κ → PhotoRecord → Bool) (p : PhotoRecord)
    (huniq : ∀ k1 k2, P k1 p = true → P k2 p = true → k1 = k2) :
    ∀ ls : List κ, ls.Nodup →
      (ls.map fun k => if P k p then 1 else 0).sum ≤ 1 := by
  intro ls
  induction ls with
  | nil => intro _; simp
  | cons k ls ih =>
    intro hnd
    rw [List.nodup_cons] at hnd
    rw [List.map_cons, List.sum_cons]
    cases hP : P k p with
    | false =>
      simpa using ih hnd.2
    | true =>
      have hz : (ls.map fun k => if P k p then 1 else 0).sum = 0 := by
        apply List.sum_eq_zero
        intro x hx
        rw [List.mem_map] at hx
        obtain ⟨k2, hk2, rfl⟩ := hx
        cases hP2 : P k2 p with
        | false => rfl
        | true => exact absurd (huniq k2 k hP2 hP ▸ hk2) hnd.1
      simp [hz]

/-- A counter's value-sum over distinct keys never exceeds the number of
photos. -/
theorem sum_countP_nodup_le {κ : Type} [DecidableEq κ]
    (P : κ → PhotoRecord → Bool)
    (huniq : ∀ p k1 k2, P k1 p = true → P k2 p = true → k1 = k2)
    (ps : List PhotoRecord) :
    ∀ ls : List κ, ls.Nodup →
      (ls.map fun k => ps.countP (P k)).sum ≤ ps.length := by
  induction ps with
  | nil =>
    intro ls _
    have : (ls.map fun k => List.countP (P k) []).sum = 0 := by
      apply List.sum_eq_zero
      intro x hx
      rw [List.mem_map] at hx
      obtain ⟨k2, _, rfl⟩ := hx
      rfl
    simp [this]
  | cons p ps ih =>
    intro ls hnd
    have hc : (ls.map fun k => List.countP (P k) (p :: ps)).sum =
        (ls.map fun k => List.countP (P k) ps).sum +
          (ls.map fun k => if P k p then 1 else 0).sum := by
      rw [← sum_map_add]
      congr 1
      refine List.map_congr_left fun k _ => ?_
      rw [List.countP_cons]
    rw [hc, List.length_cons]
    have h1 := sum_indicator_le_one P p (fun k1 k2 => huniq p k1 k2) ls hnd
    have h2 := ih ls hnd
    omega

/-- The attribute value determines the counter key. -/
theorem freq_key_unique {α : Type} [BEq α] [LawfulBEq α]
    (val : PhotoRecord → Option α) (tr : Option α → Bool) :
    ∀ (p : PhotoRecord) (k1 k2 : α),
      (tr (val p) && (val p == some k1)) = true →
        (tr (val p) && (val p == some k2)) = true → k1 = k2 := by
  intro p k1 k2 h1 h2
  rw [Bool.and_eq_true, beq_iff_eq] at h1 h2
  have := h1.2 ▸ h2.2
  exact Option.some.inj (h1.2 ▸ h2.2).symm |>.symm ▸ rfl

/-- `add_photo` keeps the photo list an append. -/
theorem foldl_addPhoto_photos (ps : List PhotoRecord) :
    ∀ s : Session, (ps.foldl Session.addPhoto s).photos = s.photos ++ ps := by
  induction ps with
  | nil => intro s; simp
  | cons p ps ih =>
    intro s
    rw [List.foldl_cons, ih]
    simp [Session.addPhoto]

/-- C9 — Total count equals input length: the statistics of a photo
population (a session built by `add_photo`, or the temporary session of the
filtered-analysis path) report `total_count` equal to the number of photos,
however sparsely the optional fields are populated; consequently every
frequency counter's value-sum over distinct keys is at most the total
count. -/
theorem total_count_invariant :
    (∀ ps : List PhotoRecord, (calcPhotos ps).totalCount = ps.length) ∧
      (∀ ps : List PhotoRecord,
        (calculateStatistics (ps.foldl Session.addPhoto {})).totalCount =
          ps.length) ∧
      (∀ (ps : List PhotoRecord) (f : FilterSpec),
        (analyzeFromPhotos ps f).1.totalPhotos =
          (filterPhotos ps f).length) ∧
      (∀ (ps : List PhotoRecord) (ks : List String),
        (ks.dedup.map (calcPhotos ps).lensFreq).sum ≤
          (calcPhotos ps).totalCount) ∧
      (∀ (ps : List PhotoRecord) (ks : List String),
        (ks.dedup.map (calcPhotos ps).cameraFreq).sum ≤
          (calcPhotos ps).totalCount) ∧
      (∀ (ps : List PhotoRecord) (ks : List String),
        (ks.dedup.map (calcPhotos ps).shutterSpeedFreq).sum ≤
          (calcPhotos ps).totalCount) ∧
      (∀ (ps : List PhotoRecord) (ks : List ℚ),
        (ks.dedup.map (calcPhotos ps).apertureFreq).sum ≤
          (calcPhotos ps).totalCount) ∧
      (∀ (ps : List PhotoRecord) (ks : List Int),
        (ks.dedup.map (calcPhotos ps).isoFreq).sum ≤
          (calcPhotos ps).totalCount) ∧
      (∀ (ps : List PhotoRecord) (ks : List String),
        (ks.dedup.map (calcPhotos ps).exposureProgramFreq).sum ≤
          (calcPhotos ps).totalCount) ∧
      (∀ (ps : List PhotoRecord) (ks : List String),
        (ks.dedup.map (calcPhotos ps).flashModeFreq).sum ≤
          (calcPhotos ps).totalCount) ∧
      (∀ (ps : List PhotoRecord) (ks : List ℚ),
        (ks.dedup.map (calcPhotos ps).focalLengthFreq).sum ≤
          (calcPhotos ps).totalCount) ∧
      (∀ (ps : List PhotoRecord) (ks : List ℚ),
        (ks.dedup.map (calcPhotos ps).exposureBiasFreq).sum ≤
          (calcPhotos ps).totalCount) := by
  have htot : ∀ ps : List PhotoRecord, (calcPhotos ps).totalCount =
      ps.length := fun ps => calculateStatistics_totalCount _
  refine ⟨htot, ?_, ?_, ?_, ?_, ?_, ?_, ?_, ?_, ?_, ?_, ?_⟩
  · intro ps
    rw [calculateStatistics_totalCount]
    induction ps using List.reverseRecOn with
    | nil => rfl
    | append_singleton l p _ =>
      rw [List.foldl_append]
      simp [Session.addPhoto, foldl_addPhoto_photos]
  · intro ps f
    have h1 : (analyzeFromPhotos ps f).1.totalPhotos =
        0 + (calculateStatistics
          (sessionOfPhotos (filterPhotos ps f))).totalCount := rfl
    rw [h1, calculateStatistics_totalCount]
    show 0 + (filterPhotos ps f).length = _
    omega
  · intro ps ks
    rw [calcPhotos_lensFreq, htot]
    exact sum_countP_nodup_le _ (freq_key_unique _ truthyS) ps ks.dedup
      (List.nodup_dedup ks)
  · intro ps ks
    rw [calcPhotos_cameraFreq, htot]
    exact sum_countP_nodup_le _ (freq_key_unique _ truthyS) ps ks.dedup
      (List.nodup_dedup ks)
  · intro ps ks
    rw [calcPhotos_shutterSpeedFreq, htot]
    exact sum_countP_nodup_le _ (freq_key_unique _ truthyS) ps ks.dedup
      (List.nodup_dedup ks)
  · intro ps ks
    rw [calcPhotos_apertureFreq, htot]
    exact sum_countP_nodup_le _ (freq_key_unique _ truthyQ) ps ks.dedup
      (List.nodup_dedup ks)
  · intro ps ks
    rw [calcPhotos_isoFreq, htot]
    exact sum_countP_nodup_le _ (freq_key_unique _ truthyI) ps ks.dedup
      (List.nodup_dedup ks)
  · intro ps ks
    rw [calcPhotos_exposureProgramFreq, htot]
    exact sum_countP_nodup_le _ (freq_key_unique _ truthyS) ps ks.dedup
      (List.nodup_dedup ks)
  · intro ps ks
    rw [calcPhotos_flashModeFreq, htot]
    exact sum_countP_nodup_le _ (freq_key_unique _ truthyS) ps ks.dedup
      (List.nodup_dedup ks)
  · intro ps ks
    rw [calcPhotos_focalLengthFreq, htot]
    exact sum_countP_nodup_le _ (freq_key_unique _ truthyQ) ps ks.dedup
      (List.nodup_dedup ks)
  · intro ps ks
    rw [calcPhotos_exposureBiasFreq, htot]
    exact sum_countP_nodup_le _ (freq_key_unique _ truthyQ) ps ks.dedup
      (List.nodup_dedup ks)

/-- The per-photo predicate of a spec whose only present key is `camera`. -/
theorem photoPred_camera (r : PyRaw) (p : PhotoRecord) :
    photoPred { camera := some r } p = cameraPred r p := by
  simp [photoPred, stageList, focalStage, lensTypeStage]

/-- The per-photo predicate of a spec whose only present key is `lens`. -/
theorem photoPred_lens (r : PyRaw) (p : PhotoRecord) :
    photoPred { lens := some r } p = lensPred r p := by
  simp [photoPred, stageList, focalStage, lensTypeStage]

/-- The per-photo predicate of a spec whose only present key is
`shutter_speed`. -/
theorem photoPred_shutter (r : PyRaw) (p : PhotoRecord) :
    photoPred { shutterSpeed := some r } p = shutterPred r p := by
  simp [photoPred, stageList, focalStage, lensTypeStage]

/-- The per-photo predicate of a spec whose only present key is
`time_of_day`. -/
theorem photoPred_timeOfDay (r : PyRaw) (p : PhotoRecord) :
    photoPred { timeOfDay := some r } p = timeOfDayPred r p := by
  simp [photoPred, stageList, focalStage, lensTypeStage]

/-- The per-photo predicate of the `lens_type = "zoom"` spec. -/
theorem photoPred_lensType_zoom (p : PhotoRecord) :
    photoPred { lensType := some (.scalar (.vStr "zoom")) } p =
      lensTypeZoomPred p := by
  simp [photoPred, stageList, focalStage, lensTypeStage]

/-- The per-photo predicate of the `lens_type = "prime"` spec. -/
theorem photoPred_lensType_prime (p : PhotoRecord) :
    photoPred { lensType := some (.scalar (.vStr "prime")) } p =
      lensTypePrimePred p := by
  simp [photoPred, stageList, focalStage, lensTypeStage]

/-- A membership filter lets a null attribute through only when `None` is
itself among the accepted values. -/
theorem memValS_none {vs : List PyVal} (h : memValS none vs = true) :
    PyVal.vNull ∈ vs := by
  rw [memValS, List.any_eq_true] at h
  obtain ⟨v, hv, hm⟩ := h
  cases v <;> simp at hm
  exact hv

/-- C4 (counterexample) — "null attributes never pass filters and counters
exclude exactly the null/absent values" fails on the code: a photo with a
null camera passes a camera filter whose accepted list contains `null`
(string-valued filter lists are not sanitised, and `None == None` in
Python), and the counters use Python truthiness, so a present-but-falsy
value (`iso = 0`, `camera = ""`) is also excluded. -/
theorem null_attribute_counterexample :
    filterPhotos [{ camera := none }] { camera := some (.vlist [.vNull]) } =
        [{ camera := none }] ∧
      (calcPhotos [{ iso := some 0 }]).isoFreq 0 = 0 ∧
      ({ iso := some 0 } : PhotoRecord).iso = some 0 ∧
      (calcPhotos [{ camera := some "" }]).cameraFreq "" = 0 ∧
      ({ camera := some "" } : PhotoRecord).camera = some "" := by
  refine ⟨by decide, by decide, rfl, by decide, rfl⟩

/-- C4 (amended) — a photo with a null value for a filtered attribute is
excluded from the filter's output unless, for the equality-compared
attributes (camera, lens, shutter_speed, time_of_day), `null` itself is
among the accepted values; the aperture, iso, and (when a value parses)
focal-length filters only ever keep photos whose value is truthy (non-null
and non-zero).  The statistics pass counts a photo in a frequency counter
exactly when the corresponding field is truthy — null, absent, zero, and
empty-string values are skipped, without error and without being coerced
to a placeholder. -/
theorem null_attribute_handling :
    (∀ (ps : List PhotoRecord) (r : PyRaw) (p : PhotoRecord),
      p ∈ filterPhotos ps { camera := some r } → p.camera = none →
        PyVal.vNull ∈ valuesAsSet r) ∧
      (∀ (ps : List PhotoRecord) (r : PyRaw) (p : PhotoRecord),
        p ∈ filterPhotos ps { lens := some r } → p.lens = none →
          PyVal.vNull ∈ valuesAsSet r) ∧
      (∀ (ps : List PhotoRecord) (r : PyRaw) (p : PhotoRecord),
        p ∈ filterPhotos ps { shutterSpeed := some r } →
          p.shutterSpeed = none → PyVal.vNull ∈ valuesAsSet r) ∧
      (∀ (ps : List PhotoRecord) (r : PyRaw) (p : PhotoRecord),
        p ∈ filterPhotos ps { timeOfDay := some r } → p.timeOfDay = none →
          PyVal.vNull ∈ valuesAsSet r) ∧
      (∀ (ps : List PhotoRecord) (r : PyRaw) (p : PhotoRecord),
        p ∈ filterPhotos ps { aperture := some r } →
          truthyQ p.aperture = true) ∧
      (∀ (ps : List PhotoRecord) (r : PyRaw) (p : PhotoRecord),
        p ∈ filterPhotos ps { iso := some r } → truthyI p.iso = true) ∧
      (∀ (ps : List PhotoRecord) (r : PyRaw) (p : PhotoRecord),
        ¬focalVals r = [] → p ∈ filterPhotos ps { focalLength := some r } →
          truthyQ p.focalLength = true) ∧
      (∀ (ps : List PhotoRecord) (k : String),
        (calcPhotos ps).cameraFreq k =
          ps.countP fun p => truthyS p.camera && (p.camera == some k)) ∧
      (∀ (ps : List PhotoRecord) (k : String),
        (calcPhotos ps).lensFreq k =
          ps.countP fun p => truthyS p.lens && (p.lens == some k)) ∧
      (∀ (ps : List PhotoRecord) (k : String),
        (calcPhotos ps).shutterSpeedFreq k =
          ps.countP fun p =>
            truthyS p.shutterSpeed && (p.shutterSpeed == some k)) ∧
      (∀ (ps : List PhotoRecord) (k : ℚ),
        (calcPhotos ps).apertureFreq k =
          ps.countP fun p => truthyQ p.aperture && (p.aperture == some k)) ∧
      (∀ (ps : List PhotoRecord) (k : Int),
        (calcPhotos ps).isoFreq k =
          ps.countP fun p => truthyI p.iso && (p.iso == some k)) ∧
      (∀ (ps : List PhotoRecord) (k : String),
        (calcPhotos ps).exposureProgramFreq k =
          ps.countP fun p =>
            truthyS p.exposureProgram && (p.exposureProgram == some k)) ∧
      (∀ (ps : List PhotoRecord) (k : String),
        (calcPhotos ps).flashModeFreq k =
          ps.countP fun p =>
            truthyS p.flashMode && (p.flashMode == some k)) ∧
      (∀ (ps : List PhotoRecord) (k : ℚ),
        (calcPhotos ps).focalLengthFreq k =
          ps.countP fun p =>
            truthyQ p.focalLength && (p.focalLength == some k)) ∧
      (∀ (ps : List PhotoRecord) (k : ℚ),
        (calcPhotos ps).exposureBiasFreq k =
          ps.countP fun p =>
            truthyQ p.exposureBias && (p.exposureBias == some k)) := by
  refine ⟨?_, ?_, ?_, ?_, ?_, ?_, ?_,
    fun ps k => congrFun (calcPhotos_cameraFreq ps) k,
    fun ps k => congrFun (calcPhotos_lensFreq ps) k,
    fun ps k => congrFun (calcPhotos_shutterSpeedFreq ps) k,
    fun ps k => congrFun (calcPhotos_apertureFreq ps) k,
    fun ps k => congrFun (calcPhotos_isoFreq ps) k,
    fun ps k => congrFun (calcPhotos_exposureProgramFreq ps) k,
    fun ps k => congrFun (calcPhotos_flashModeFreq ps) k,
    fun ps k => congrFun (calcPhotos_focalLengthFreq ps) k,
    fun ps k => congrFun (calcPhotos_exposureBiasFreq ps) k⟩
  · intro ps r p hmem hnone
    rw [filterPhotos_eq_filter, List.mem_filter, photoPred_camera] at hmem
    exact memValS_none (by rw [cameraPred, hnone] at hmem; exact hmem.2)
  · intro ps r p hmem hnone
    rw [filterPhotos_eq_filter, List.mem_filter, photoPred_lens] at hmem
    exact memValS_none (by rw [lensPred, hnone] at hmem; exact hmem.2)
  · intro ps r p hmem hnone
    rw [filterPhotos_eq_filter, List.mem_filter, photoPred_shutter] at hmem
    exact memValS_none (by rw [shutterPred, hnone] at hmem; exact hmem.2)
  · intro ps r p hmem hnone
    rw [filterPhotos_eq_filter, List.mem_filter, photoPred_timeOfDay] at hmem
    exact memValS_none (by rw [timeOfDayPred, hnone] at hmem; exact hmem.2)
  · intro ps r p hmem
    rw [filterPhotos_eq_filter, List.mem_filter, photoPred_aperture] at hmem
    have := hmem.2
    rw [aperturePred] at this
    cases ha : p.aperture with
    | none => rw [ha] at this; exact absurd this (by simp)
    | some q =>
      rw [ha] at this
      simp only [Bool.and_eq_true] at this
      simp [truthyQ, ha, this.1]
  · intro ps r p hmem
    rw [filterPhotos_eq_filter, List.mem_filter, photoPred_iso] at hmem
    have := hmem.2
    rw [isoPred] at this
    cases ha : p.iso with
    | none => rw [ha] at this; exact absurd this (by simp)
    | some n =>
      rw [ha] at this
      simp only [Bool.and_eq_true] at this
      simp [truthyI, ha, this.1]
  · intro ps r p hne hmem
    rw [filterPhotos_eq_filter, List.mem_filter,
      photoPred_focal r p hne] at hmem
    have := hmem.2
    rw [focalPred] at this
    cases ha : p.focalLength with
    | none => rw [ha] at this; exact absurd this (by simp)
    | some q =>
      rw [ha] at this
      simp only [Bool.and_eq_true] at this
      simp [truthyQ, ha, this.1]

/-- Witness for C4: the camera-filter clause applied at a concrete null
camera and the accepted list `[null]` recovers that `null` is among the
accepted values. -/
theorem null_attribute_handling_witness :
    PyVal.vNull ∈ valuesAsSet (.vlist [.vNull]) :=
  null_attribute_handling.1 [{ camera := none }] (.vlist [.vNull])
    { camera := none } (by decide) rfl

/-- C8 (counterexample) — the claimed "hyphen followed by an `mm`
substring" heuristic is not what the code checks: the `lens_type = "zoom"`
filter keeps any photo whose lens name merely contains a hyphen, even with
no `mm` anywhere ("X-Pro"), so the claimed characterisation fails at that
input. -/
theorem lens_type_filter_counterexample :
    filterPhotos [{ lens := some "X-Pro" }]
        { lensType := some (.scalar (.vStr "zoom")) } =
        [{ lens := some "X-Pro" }] ∧
      specZoomHeuristic "X-Pro" = false := by
  refine ⟨by decide, by decide⟩

/-- C8 (amended) — the `lens_type` filter decides by the lens *name* alone
(the embedded photo record stores no lens-type field at all): `"zoom"`
keeps exactly the photos whose truthy lens name contains a hyphen anywhere
(no `mm` check), and `"prime"` keeps exactly the photos whose truthy lens
name contains no hyphen. -/
theorem lens_type_filter (ps : List PhotoRecord) (p : PhotoRecord) :
    (p ∈ filterPhotos ps { lensType := some (.scalar (.vStr "zoom")) } ↔
      p ∈ ps ∧ ∃ s, p.lens = some s ∧ ¬s = "" ∧ '-' ∈ s.data) ∧
      (p ∈ filterPhotos ps { lensType := some (.scalar (.vStr "prime")) } ↔
        p ∈ ps ∧ ∃ s, p.lens = some s ∧ ¬s = "" ∧ ¬('-' ∈ s.data)) := by
  constructor
  · rw [filterPhotos_eq_filter, List.mem_filter, photoPred_lensType_zoom]
    cases hl : p.lens with
    | none => simp [lensTypeZoomPred, truthyS, hl]
    | some s =>
      simp [lensTypeZoomPred, truthyS, hasHyphen, hl, List.contains,
        List.elem_iff]
  · rw [filterPhotos_eq_filter, List.mem_filter, photoPred_lensType_prime]
    cases hl : p.lens with
    | none => simp [lensTypePrimePred, truthyS, hl]
    | some s =>
      simp [lensTypePrimePred, truthyS, hasHyphen, hl, List.contains,
        List.elem_iff]

/-! ### Characterisation of `analyze_sessions` -/

/-- The `total_raw` accumulator sums the truthy raw counts. -/
theorem foldl_analyzeStep_snd (ss : List Session) :
    ∀ (a : Analysis) (t : Int),
      (ss.foldl analyzeStep (a, t)).2 = t + sumTruthyRaw ss := by
  induction ss with
  | nil => intro a t; simp [sumTruthyRaw]
  | cons s ss ih =>
    intro a t
    rw [List.foldl_cons, show analyzeStep (a, t) s =
      (a.addSessionStats (calculateStatistics s),
        if truthyI s.totalRawPhotos then t + s.totalRawPhotos.getD 0 else t)
      from rfl, ih]
    cases htr : truthyI s.totalRawPhotos <;>
      (simp [sumTruthyRaw, List.filter_cons, htr]; try omega)

/-- The analysis accumulates each session's `total_photos` field. -/
theorem foldl_analyzeStep_fst_total (ss : List Session) :
    ∀ (a : Analysis) (t : Int),
      (ss.foldl analyzeStep (a, t)).1.totalPhotos =
        a.totalPhotos + (ss.map Session.totalPhotos).sum := by
  induction ss with
  | nil => intro a t; simp
  | cons s ss ih =>
    intro a t
    rw [List.foldl_cons, show analyzeStep (a, t) s =
      (a.addSessionStats (calculateStatistics s),
        if truthyI s.totalRawPhotos then t + s.totalRawPhotos.getD 0 else t)
      from rfl, ih]
    rw [show (a.addSessionStats (calculateStatistics s)).totalPhotos =
        a.totalPhotos + (calculateStatistics s).totalCount from rfl,
      calculateStatistics_totalCount]
    simp [List.map_cons]
    omega

/-- The session loop never writes `hit_rate`. -/
theorem foldl_analyzeStep_fst_hitRate (ss : List Session) :
    ∀ (a : Analysis) (t : Int),
      (ss.foldl analyzeStep (a, t)).1.hitRate = a.hitRate := by
  induction ss with
  | nil => intro a t; rfl
  | cons s ss ih =>
    intro a t
    rw [List.foldl_cons]
    exact ih _ _

/-- C1 (counterexample) — the claimed validity-filtered hit rate fails on
`analyze_sessions`: for S1 (photos 50, raw 100), S2 (photos 30, raw null),
S3 (photos 10, raw 5 — photos > raw), the code's aggregate hit rate is
`100 × 90 / 105 ≈ 85.7`, not the claimed `50.0` (S3's invalid raw count is
included in the denominator and every session's photos in the numerator);
the total photo count is 90 as claimed. -/
theorem hit_rate_counterexample :
    (analyzeSessions
        [{ totalPhotos := 50, totalRawPhotos := some 100 },
         { totalPhotos := 30 },
         { totalPhotos := 10, totalRawPhotos := some 5 }]).totalPhotos =
        90 ∧
      ¬(analyzeSessions
          [{ totalPhotos := 50, totalRawPhotos := some 100 },
           { totalPhotos := 30 },
           { totalPhotos := 10, totalRawPhotos := some 5 }]).hitRate =
        some 50 := by
  constructor
  · decide
  · intro h
    have h' : (analyzeSessions
        [{ totalPhotos := 50, totalRawPhotos := some 100 },
         { totalPhotos := 30 },
         { totalPhotos := 10, totalRawPhotos := some 5 }]).hitRate =
        some ((((0 + 50 + 30 + 10 : Nat) : ℚ)) /
          (((0 + 100 + 5 : Int) : ℚ)) * 100) := rfl
    rw [h'] at h
    have heq := Option.some.inj h
    norm_num at heq

/-- C1 (amended) — `analyze_sessions` applies no validity rule at all: the
aggregate's `total_photos` is the sum of every session's `total_photos`
field, its `total_raw_photos` is the sum of `total_raw_photos` over the
sessions where that field is truthy (non-null, non-zero — sessions with
`photos > raw` still contribute their raw counts), and the hit rate is
`100 × total_photos / total_raw_photos` whenever that truthy-raw sum is
positive and undefined otherwise; all sessions contribute their photos to
the numerator. -/
theorem hit_rate_recombination (ss : List Session) :
    (analyzeSessions ss).totalPhotos = (ss.map Session.totalPhotos).sum ∧
      (analyzeSessions ss).totalRawPhotos = sumTruthyRaw ss ∧
      (analyzeSessions ss).hitRate =
        (if 0 < sumTruthyRaw ss then
          some ((((ss.map Session.totalPhotos).sum : Nat) : ℚ) /
            ((sumTruthyRaw ss : Int) : ℚ) * 100)
        else none) := by
  have h2 := foldl_analyzeStep_snd ss { name := "Combined Analysis" } 0
  have h1 := foldl_analyzeStep_fst_total ss { name := "Combined Analysis" } 0
  have h3 := foldl_analyzeStep_fst_hitRate ss { name := "Combined Analysis" } 0
  rw [Int.zero_add] at h2
  have h1' : (ss.foldl analyzeStep
      ({ name := "Combined Analysis" }, 0)).1.totalPhotos =
      (ss.map Session.totalPhotos).sum := by
    rw [h1]
    simp
  have hform : analyzeSessions ss =
      if 0 < sumTruthyRaw ss then
        { (ss.foldl analyzeStep ({ name := "Combined Analysis" }, 0)).1 with
          totalRawPhotos := sumTruthyRaw ss
          hitRate := some
            (((ss.foldl analyzeStep
                ({ name := "Combined Analysis" }, 0)).1.totalPhotos : ℚ) /
              ((sumTruthyRaw ss : Int) : ℚ) * 100) }
      else
        { (ss.foldl analyzeStep ({ name := "Combined Analysis" }, 0)).1 with
          totalRawPhotos := sumTruthyRaw ss } := by
    simp only [analyzeSessions, Analysis.calcAggregatedHitRate, h2]
    by_cases hpos : 0 < sumTruthyRaw ss
    · rw [if_pos hpos]
      try rw [if_pos hpos]
      try rfl
    · rw [if_neg hpos]
      try rw [if_neg hpos]
      try rfl
  rw [hform]
  by_cases hpos : 0 < sumTruthyRaw ss
  · rw [if_pos hpos]
    refine ⟨h1', rfl, ?_⟩
    rw [if_pos hpos, h1']
  · rw [if_neg hpos]
    refine ⟨h1', rfl, ?_⟩
    rw [if_neg hpos]
    exact h3

/-! ### Characterisation of the category/group overlay -/

/-- A photo of another category leaves that category's entry and id set
untouched. -/
theorem overlayStep_cats_ne (sinfo : Int → Option SInfo) (st : OverlayState)
    (p : PhotoRecord) (cat : String) (h : ¬photoCategory sinfo p = cat) :
    (overlayStep sinfo st p).cats cat = st.cats cat ∧
      (overlayStep sinfo st p).catSess cat = st.catSess cat := by
  have hne : ¬cat = photoCategory sinfo p := fun hh => h hh.symm
  simp only [photoCategory] at hne
  constructor <;>
  · simp only [overlayStep, updKey]
    rcases hC : st.cats (orSentinel
        (match p.sessionId with
          | some id => (sinfo id).getD {}
          | none => ({} : SInfo)).category "Uncategorized") with _ | e <;>
      simp [hC, updKey, hne]

/-- A photo of another group leaves that group's entry and id set
untouched. -/
theorem overlayStep_grps_ne (sinfo : Int → Option SInfo) (st : OverlayState)
    (p : PhotoRecord) (grp : String) (h : ¬photoGroup sinfo p = grp) :
    (overlayStep sinfo st p).grps grp = st.grps grp ∧
      (overlayStep sinfo st p).grpSess grp = st.grpSess grp := by
  have hne : ¬grp = photoGroup sinfo p := fun hh => h hh.symm
  simp only [photoGroup] at hne
  constructor <;>
  · simp only [overlayStep, updKey]
    rcases hC : st.grps (orSentinel
        (match p.sessionId with
          | some id => (sinfo id).getD {}
          | none => ({} : SInfo)).group "Ungrouped") with _ | e <;>
      simp [hC, updKey, hne]

/-- The walk only ever adds category entries, never removes them. -/
theorem overlayStep_cats_isSome (sinfo : Int → Option SInfo)
    (st : OverlayState) (p : PhotoRecord) (cat : String)
    (h : (st.cats cat).isSome = true) :
    ((overlayStep sinfo st p).cats cat).isSome = true := by
  by_cases hc : photoCategory sinfo p = cat
  · subst hc
    simp only [overlayStep, photoCategory, updKey]
    rcases hC : st.cats (orSentinel
        (match p.sessionId with
          | some id => (sinfo id).getD {}
          | none => ({} : SInfo)).category "Uncategorized") with _ | e <;>
      simp [hC, updKey]
  · rw [(overlayStep_cats_ne sinfo st p cat hc).1]
    exact h

/-- The walk only ever adds group entries, never removes them. -/
theorem overlayStep_grps_isSome (sinfo : Int → Option SInfo)
    (st : OverlayState) (p : PhotoRecord) (grp : String)
    (h : (st.grps grp).isSome = true) :
    ((overlayStep sinfo st p).grps grp).isSome = true := by
  by_cases hc : photoGroup sinfo p = grp
  · subst hc
    simp only [overlayStep, photoGroup, updKey]
    rcases hC : st.grps (orSentinel
        (match p.sessionId with
          | some id => (sinfo id).getD {}
          | none => ({} : SInfo)).group "Ungrouped") with _ | e <;>
      simp [hC, updKey]
  · rw [(overlayStep_grps_ne sinfo st p grp hc).1]
    exact h

/-- Fold version of `overlayStep_cats_ne`. -/
theorem overlay_fold_cats_ne (sinfo : Int → Option SInfo) (cat : String)
    (fps : List PhotoRecord) (h : ∀ p ∈ fps, ¬photoCategory sinfo p = cat) :
    ∀ st : OverlayState,
      (fps.foldl (overlayStep sinfo) st).cats cat = st.cats cat ∧
        (fps.foldl (overlayStep sinfo) st).catSess cat = st.catSess cat := by
  induction fps with
  | nil => intro st; exact ⟨rfl, rfl⟩
  | cons p fps ih =>
    intro st
    rw [List.foldl_cons]
    have hstep := overlayStep_cats_ne sinfo st p cat
      (h p (List.mem_cons_self p fps))
    have hrest := ih (fun q hq => h q (List.mem_cons_of_mem p hq))
      (overlayStep sinfo st p)
    exact ⟨hrest.1.trans hstep.1, hrest.2.trans hstep.2⟩

/-- Fold version of `overlayStep_grps_ne`. -/
theorem overlay_fold_grps_ne (sinfo : Int → Option SInfo) (grp : String)
    (fps : List PhotoRecord) (h : ∀ p ∈ fps, ¬photoGroup sinfo p = grp) :
    ∀ st : OverlayState,
      (fps.foldl (overlayStep sinfo) st).grps grp = st.grps grp ∧
        (fps.foldl (overlayStep sinfo) st).grpSess grp = st.grpSess grp := by
  induction fps with
  | nil => intro st; exact ⟨rfl, rfl⟩
  | cons p fps ih =>
    intro st
    rw [List.foldl_cons]
    have hstep := overlayStep_grps_ne sinfo st p grp
      (h p (List.mem_cons_self p fps))
    have hrest := ih (fun q hq => h q (List.mem_cons_of_mem p hq))
      (overlayStep sinfo st p)
    exact ⟨hrest.1.trans hstep.1, hrest.2.trans hstep.2⟩

/-- Fold version of `overlayStep_cats_isSome`. -/
theorem overlay_fold_cats_isSome (sinfo : Int → Option SInfo) (cat : String)
    (fps : List PhotoRecord) :
    ∀ st : OverlayState, (st.cats cat).isSome = true →
      ((fps.foldl (overlayStep sinfo) st).cats cat).isSome = true := by
  induction fps with
  | nil => intro st h; exact h
  | cons p fps ih =>
    intro st h
    rw [List.foldl_cons]
    exact ih _ (overlayStep_cats_isSome sinfo st p cat h)

/-- Fold version of `overlayStep_grps_isSome`. -/
theorem overlay_fold_grps_isSome (sinfo : Int → Option SInfo) (grp : String)
    (fps : List PhotoRecord) :
    ∀ st : OverlayState, (st.grps grp).isSome = true →
      ((fps.foldl (overlayStep sinfo) st).grps grp).isSome = true := by
  induction fps with
  | nil => intro st h; exact h
  | cons p fps ih =>
    intro st h
    rw [List.foldl_cons]
    exact ih _ (overlayStep_grps_isSome sinfo st p grp h)

/-- C5 — All options stay visible under filtering: every category and every
group present in the unfiltered all-sessions baseline is still present in
the overlaid rollup, and a category/group to which no filtered photo maps
is reported with session count 0 and photo count 0 rather than dropped
from the mapping. -/
theorem facet_all_options_visible (rows : List SessionRow)
    (sinfo : Int → Option SInfo) (fps : List PhotoRecord)
    (cat grp : String) :
    ((baselineCategories rows cat).isSome = true →
      (((overlayFilteredCounts (baselineCategories rows)
            (baselineGroups rows).1 sinfo fps).1 cat).isSome = true ∧
        ((∀ p ∈ fps, ¬photoCategory sinfo p = cat) →
          ∃ e, (overlayFilteredCounts (baselineCategories rows)
              (baselineGroups rows).1 sinfo fps).1 cat = some e ∧
            e.sessions = 0 ∧ e.photos = 0))) ∧
      (((baselineGroups rows).1 grp).isSome = true →
        (((overlayFilteredCounts (baselineCategories rows)
              (baselineGroups rows).1 sinfo fps).2 grp).isSome = true ∧
          ((∀ p ∈ fps, ¬photoGroup sinfo p = grp) →
            ∃ e, (overlayFilteredCounts (baselineCategories rows)
                (baselineGroups rows).1 sinfo fps).2 grp = some e ∧
              e.sessions = 0 ∧ e.photos = 0))) := by
  constructor
  · intro hbase
    obtain ⟨e0, he0⟩ := Option.isSome_iff_exists.mp hbase
    have hinit : ((overlayInit (baselineCategories rows)
        (baselineGroups rows).1).cats cat).isSome = true := by
      show ((baselineCategories rows cat).map fun e =>
        ({ e with sessions := 0, photos := 0 } : CatEntry)).isSome = true
      rw [he0]
      rfl
    constructor
    · have hsome := overlay_fold_cats_isSome sinfo cat fps _ hinit
      obtain ⟨e1, he1⟩ := Option.isSome_iff_exists.mp hsome
      show (((fps.foldl (overlayStep sinfo)
        (overlayInit (baselineCategories rows)
          (baselineGroups rows).1)).cats cat).map _).isSome = true
      rw [he1]
      rfl
    · intro hnone
      have hfold := overlay_fold_cats_ne sinfo cat fps hnone
        (overlayInit (baselineCategories rows) (baselineGroups rows).1)
      refine ⟨{ e0 with sessions := 0, photos := 0 }, ?_, rfl, rfl⟩
      show (((fps.foldl (overlayStep sinfo)
        (overlayInit (baselineCategories rows)
          (baselineGroups rows).1)).cats cat).map _) = _
      simp only [hfold.1, hfold.2]
      show (((baselineCategories rows cat).map fun e =>
        ({ e with sessions := 0, photos := 0 } : CatEntry)).map _) = _
      rw [he0]
      simp
      rfl
  · intro hbase
    obtain ⟨e0, he0⟩ := Option.isSome_iff_exists.mp hbase
    have hinit : ((overlayInit (baselineCategories rows)
        (baselineGroups rows).1).grps grp).isSome = true := by
      show (((baselineGroups rows).1 grp).map fun e =>
        ({ e with sessions := 0, photos := 0 } : GrpEntry)).isSome = true
      rw [he0]
      rfl
    constructor
    · have hsome := overlay_fold_grps_isSome sinfo grp fps _ hinit
      obtain ⟨e1, he1⟩ := Option.isSome_iff_exists.mp hsome
      show (((fps.foldl (overlayStep sinfo)
        (overlayInit (baselineCategories rows)
          (baselineGroups rows).1)).grps grp).map _).isSome = true
      rw [he1]
      rfl
    · intro hnone
      have hfold := overlay_fold_grps_ne sinfo grp fps hnone
        (overlayInit (baselineCategories rows) (baselineGroups rows).1)
      refine ⟨{ e0 with sessions := 0, photos := 0 }, ?_, rfl, rfl⟩
      show (((fps.foldl (overlayStep sinfo)
        (overlayInit (baselineCategories rows)
          (baselineGroups rows).1)).grps grp).map _) = _
      simp only [hfold.1, hfold.2]
      show ((((baselineGroups rows).1 grp).map fun e =>
        ({ e with sessions := 0, photos := 0 } : GrpEntry)).map _) = _
      rw [he0]
      simp
      rfl

/-- Witness for C5: three sessions in categories A, B, C with a filtered
photo population living entirely in category A — category "B" still
appears in the overlaid rollup, with zero session and photo counts. -/
theorem facet_all_options_visible_witness :
    ∃ e,
      (overlayFilteredCounts
          (baselineCategories
            [{ id := 1, category := some "A", groupName := some "GA",
               totalPhotos := some 5, totalRawPhotos := some 10 },
             { id := 2, category := some "B", groupName := some "GB",
               totalPhotos := some 7 },
             { id := 3, category := some "C", groupName := some "GC",
               totalPhotos := some 3, totalRawPhotos := some 2 }])
          (baselineGroups
            [{ id := 1, category := some "A", groupName := some "GA",
               totalPhotos := some 5, totalRawPhotos := some 10 },
             { id := 2, category := some "B", groupName := some "GB",
               totalPhotos := some 7 },
             { id := 3, category := some "C", groupName := some "GC",
               totalPhotos := some 3, totalRawPhotos := some 2 }]).1
          (fun i =>
            if i = 1 then
              some { category := some "A", group := some "GA" }
            else if i = 2 then
              some { category := some "B", group := some "GB" }
            else if i = 3 then
              some { category := some "C", group := some "GC" }
            else none)
          [{ sessionId := some 1 }, { sessionId := some 1 }]).1 "B" =
        some e ∧ e.sessions = 0 ∧ e.photos = 0 :=
  ((facet_all_options_visible
      [{ id := 1, category := some "A", groupName := some "GA",
         totalPhotos := some 5, totalRawPhotos := some 10 },
       { id := 2, category := some "B", groupName := some "GB",
         totalPhotos := some 7 },
       { id := 3, category := some "C", groupName := some "GC",
         totalPhotos := some 3, totalRawPhotos := some 2 }]
      (fun i =>
        if i = 1 then some { category := some "A", group := some "GA" }
        else if i = 2 then some { category := some "B", group := some "GB" }
        else if i = 3 then some { category := some "C", group := some "GC" }
        else none)
      [{ sessionId := some 1 }, { sessionId := some 1 }] "B" "GB").1
    (by decide)).2 (by decide)

end PW
